import Mathlib

/-!
Verification development for the radix-event-stream repository.

The definitions below are a shallow embedding of the Rust sources:
- `src/radix-event-stream/src/models.rs` (canonical `Event`/`Transaction` model),
- `src/src/native_events/mod.rs` plus the per-family event-type enums
  (`NativeEventType` and `NativeEventType.resolve`),
- `src/src/event_handler.rs` (`HandlerRegistry` and its operations),
- `src/src/error.rs` (the three-kind error taxonomy and the
  `From<EventHandlerError> for TransactionHandlerError` conversion),
- `src/radix-event-stream/src/processor.rs` (`EventProcessor::process_events`,
  `TransactionProcessor::process_transaction`, `TransactionStreamProcessor::run`),
- `src/src/sources/database.rs` and `src/src/sources/gateway.rs`
  (query/cursor semantics of `next_batch` and the fetcher `run` loops).

Rust `panic!` sites are modelled as `none` of an `Option` result; machine
integers are modelled as `Nat` (no arithmetic in the sources overflows);
async effects (handler invocations, logger hooks, sleeps) are modelled as an
explicit trace of actions emitted by a deterministic interpreter whose
environment is an oracle giving each handler's successive results.
-/

/-- Entity classification attached to a `Method` emitter.  The enumeration
lives in the external `radix_client` crate; the constructors below are the
ones the repository's code distinguishes (`handler_exists_for_event` and
`NativeEventType.resolve`), together with further representative members of
the closed ledger enumeration that all fall into those functions' catch-all
arms. -/
inductive EntityType
  | GlobalGenericComponent
  | InternalGenericComponent
  | InternalFungibleVault
  | InternalNonFungibleVault
  | GlobalOneResourcePool
  | GlobalTwoResourcePool
  | GlobalMultiResourcePool
  | GlobalAccount
  | GlobalVirtualEd25519Account
  | GlobalVirtualSecp256k1Account
  | GlobalPackage
  | GlobalValidator
  | GlobalConsensusManager
  | GlobalAccountLocker
  | GlobalFungibleResourceManager
  | GlobalNonFungibleResourceManager
  | GlobalIdentity
  | InternalKeyValueStore
deriving DecidableEq, Repr

/-- The object-module id of a `Method` emitter (external `radix_client` crate). -/
inductive ModuleId
  | Main
  | Metadata
  | Royalty
  | RoleAssignment
deriving DecidableEq, Repr

/-- `EventEmitter` from `src/radix-event-stream/src/models.rs`. -/
inductive EventEmitter
  | Method (entity_address : String) (entity_type : EntityType)
      (is_global : Bool) (object_module_id : ModuleId)
  | Function (package_address : String) (blueprint_name : String)
deriving DecidableEq, Repr

/-- `EventEmitter::address` from `src/radix-event-stream/src/models.rs`. -/
def EventEmitter.address : EventEmitter → String
  | .Method entity_address _ _ _ => entity_address
  | .Function package_address _ => package_address

/-- `Event` from `src/radix-event-stream/src/models.rs`; the binary SBOR
payload is opaque to the core and modelled as a list of bytes. -/
structure Event where
  name : String
  binary_sbor_data : List Nat
  emitter : EventEmitter
deriving DecidableEq, Repr

/-- `Transaction` from `src/radix-event-stream/src/models.rs`; the
`confirmed_at` timestamp is opaque to the core and modelled as `Option Nat`. -/
structure Transaction where
  intent_hash : String
  state_version : Nat
  confirmed_at : Option Nat
  events : List Event
deriving DecidableEq, Repr

/-- `ResourceManagerEventType` (`src/src/native_events/resource_manager.rs`). -/
inductive ResourceManagerEventType
  | BurnFungibleResourceEvent
  | BurnNonFungibleResourceEvent
  | MintFungibleResourceEvent
  | MintNonFungibleResourceEvent
  | VaultCreationEvent
deriving DecidableEq, Repr

/-- `MetadataEventType` (`src/crates/radix-event-stream/src/native_events/metadata.rs`). -/
inductive MetadataEventType
  | RemoveMetadataEvent
  | SetMetadataEvent
deriving DecidableEq, Repr

/-- `FungibleVaultEventType` (`src/src/native_events/fungible_vault.rs`). -/
inductive FungibleVaultEventType
  | DepositEvent
  | LockFeeEvent
  | PayFeeEvent
  | RecallEvent
  | WithdrawEvent
deriving DecidableEq, Repr

/-- `NonFungibleVaultEventType` (`src/radix-event-stream/src/native_events/non_fungible_vault.rs`). -/
inductive NonFungibleVaultEventType
  | DepositEvent
  | RecallEvent
  | WithdrawEvent
deriving DecidableEq, Repr

/-- `OneResourcePoolEventType` (`src/radix_event_stream/src/native_events/pool.rs`). -/
inductive OneResourcePoolEventType
  | ContributionEvent
  | RedemptionEvent
  | WithdrawEvent
  | DepositEvent
deriving DecidableEq, Repr

/-- `TwoResourcePoolEventType` (`src/radix_event_stream/src/native_events/pool.rs`). -/
inductive TwoResourcePoolEventType
  | ContributionEvent
  | RedemptionEvent
  | WithdrawEvent
  | DepositEvent
deriving DecidableEq, Repr

/-- `MultiResourcePoolEventType` (`src/radix_event_stream/src/native_events/pool.rs`). -/
inductive MultiResourcePoolEventType
  | ContributionEvent
  | RedemptionEvent
  | WithdrawEvent
  | DepositEvent
deriving DecidableEq, Repr

/-- `AccountLockerEventType` (`src/crates/radix-event-stream/src/native_events/account_locker.rs`). -/
inductive AccountLockerEventType
  | ClaimEvent
  | RecoverEvent
  | StoreEvent
deriving DecidableEq, Repr

/-- `ValidatorEventType` (`src/radix-event-stream/src/native_events/validator.rs`). -/
inductive ValidatorEventType
  | RegisterValidatorEvent
  | UnregisterValidatorEvent
  | StakeEvent
  | UnstakeEvent
  | ClaimXrdEvent
  | UpdateAcceptingStakeDelegationStateEvent
  | ProtocolUpdateReadinessSignalEvent
  | ValidatorEmissionAppliedEvent
  | ValidatorRewardAppliedEvent
deriving DecidableEq, Repr

/-- `ConsensusManagerEventType` (`src/src/native_events/consensus_manager.rs`). -/
inductive ConsensusManagerEventType
  | RoundChangeEvent
  | EpochChangeEvent
deriving DecidableEq, Repr

/-- `RoleAssignmentEventType` (`src/radix-event-stream/src/native_events/role_assignment.rs`). -/
inductive RoleAssignmentEventType
  | LockOwnerRoleEvent
  | SetOwnerRoleEvent
  | SetRoleEvent
deriving DecidableEq, Repr

/-- `AccountEventType` (`src/src/native_events/account.rs`). -/
inductive AccountEventType
  | AddAuthorizedDepositorEvent
  | DepositEvent
  | RejectedDepositEvent
  | RemoveAuthorizedDepositorEvent
  | RemoveResourcePreferenceEvent
  | SetDefaultDepositRuleEvent
  | SetResourcePreferenceEvent
  | WithdrawEvent
deriving DecidableEq, Repr

/-- `NativeEventType` (`src/src/native_events/mod.rs`), including the
source's spelling `TwoResoucePool`. -/
inductive NativeEventType
  | ResourceManager (t : ResourceManagerEventType)
  | Metadata (t : MetadataEventType)
  | FungibleVault (t : FungibleVaultEventType)
  | NonFungibleVault (t : NonFungibleVaultEventType)
  | OneResourcePool (t : OneResourcePoolEventType)
  | TwoResoucePool (t : TwoResourcePoolEventType)
  | MultiResourcePool (t : MultiResourcePoolEventType)
  | AccountLocker (t : AccountLockerEventType)
  | Validator (t : ValidatorEventType)
  | ConsensusManager (t : ConsensusManagerEventType)
  | RoleAssignment (t : RoleAssignmentEventType)
  | Account (t : AccountEventType)
deriving DecidableEq, Repr

/-- `NativeEventType::resolve` (`src/src/native_events/mod.rs`, lines 44-228).
The Rust function returns `Result<Self, ()>`; `none` models `Err(())`. -/
def NativeEventType.resolve (event_name : String) (entity_type : EntityType) :
    Option NativeEventType :=
  match event_name with
  | "VaultCreationEvent" =>
      some (.ResourceManager .VaultCreationEvent)
  | "MintFungibleResourceEvent" =>
      some (.ResourceManager .MintFungibleResourceEvent)
  | "BurnFungibleResourceEvent" =>
      some (.ResourceManager .BurnFungibleResourceEvent)
  | "MintNonFungibleResourceEvent" =>
      some (.ResourceManager .MintNonFungibleResourceEvent)
  | "BurnNonFungibleResourceEvent" =>
      some (.ResourceManager .BurnNonFungibleResourceEvent)
  | "SetMetadataEvent" => some (.Metadata .SetMetadataEvent)
  | "RemoveMetadataEvent" => some (.Metadata .RemoveMetadataEvent)
  | "WithdrawEvent" =>
      match entity_type with
      | .InternalFungibleVault => some (.FungibleVault .WithdrawEvent)
      | .InternalNonFungibleVault => some (.NonFungibleVault .WithdrawEvent)
      | .GlobalOneResourcePool => some (.OneResourcePool .WithdrawEvent)
      | .GlobalTwoResourcePool => some (.TwoResoucePool .WithdrawEvent)
      | .GlobalMultiResourcePool => some (.MultiResourcePool .WithdrawEvent)
      | .GlobalAccount => some (.Account .WithdrawEvent)
      | .GlobalVirtualEd25519Account => some (.Account .WithdrawEvent)
      | .GlobalVirtualSecp256k1Account => some (.Account .WithdrawEvent)
      | _ => none
  | "DepositEvent" =>
      match entity_type with
      | .InternalFungibleVault => some (.FungibleVault .DepositEvent)
      | .InternalNonFungibleVault => some (.NonFungibleVault .DepositEvent)
      | .GlobalOneResourcePool => some (.OneResourcePool .DepositEvent)
      | .GlobalTwoResourcePool => some (.TwoResoucePool .DepositEvent)
      | .GlobalMultiResourcePool => some (.MultiResourcePool .DepositEvent)
      | .GlobalAccount => some (.Account .DepositEvent)
      | .GlobalVirtualEd25519Account => some (.Account .DepositEvent)
      | .GlobalVirtualSecp256k1Account => some (.Account .DepositEvent)
      | _ => none
  | "RecallEvent" =>
      match entity_type with
      | .InternalFungibleVault => some (.FungibleVault .RecallEvent)
      | .InternalNonFungibleVault => some (.NonFungibleVault .RecallEvent)
      | _ => none
  | "LockFeeEvent" => some (.FungibleVault .LockFeeEvent)
  | "PayFeeEvent" => some (.FungibleVault .PayFeeEvent)
  | "RedemptionEvent" =>
      match entity_type with
      | .GlobalOneResourcePool => some (.OneResourcePool .RedemptionEvent)
      | .GlobalTwoResourcePool => some (.TwoResoucePool .RedemptionEvent)
      | .GlobalMultiResourcePool => some (.MultiResourcePool .RedemptionEvent)
      | _ => none
  | "ContributionEvent" =>
      match entity_type with
      | .GlobalOneResourcePool => some (.OneResourcePool .ContributionEvent)
      | .GlobalTwoResourcePool => some (.TwoResoucePool .ContributionEvent)
      | .GlobalMultiResourcePool => some (.MultiResourcePool .ContributionEvent)
      | _ => none
  | "StoreEvent" => some (.AccountLocker .StoreEvent)
  | "RecoverEvent" => some (.AccountLocker .RecoverEvent)
  | "ClaimEvent" => some (.AccountLocker .ClaimEvent)
  | "RegisterValidatorEvent" => some (.Validator .RegisterValidatorEvent)
  | "UnregisterValidatorEvent" => some (.Validator .UnregisterValidatorEvent)
  | "StakeEvent" => some (.Validator .StakeEvent)
  | "UnstakeEvent" => some (.Validator .UnstakeEvent)
  | "ClaimXrdEvent" => some (.Validator .ClaimXrdEvent)
  | "UpdateAcceptingStakeDelegationStateEvent" =>
      some (.Validator .UpdateAcceptingStakeDelegationStateEvent)
  | "ProtocolUpdateReadinessSignalEvent" =>
      some (.Validator .ProtocolUpdateReadinessSignalEvent)
  | "ValidatorEmissionAppliedEvent" =>
      some (.Validator .ValidatorEmissionAppliedEvent)
  | "ValidatorRewardAppliedEvent" =>
      some (.Validator .ValidatorRewardAppliedEvent)
  | "RoundChangeEvent" => some (.ConsensusManager .RoundChangeEvent)
  | "EpochChangeEvent" => some (.ConsensusManager .EpochChangeEvent)
  | "SetRoleEvent" => some (.RoleAssignment .SetRoleEvent)
  | "SetOwnerRoleEvent" => some (.RoleAssignment .SetOwnerRoleEvent)
  | "LockOwnerRoleEvent" => some (.RoleAssignment .LockOwnerRoleEvent)
  | "AddAuthorizedDepositorEvent" =>
      some (.Account .AddAuthorizedDepositorEvent)
  | "RejectedDepositEvent" => some (.Account .RejectedDepositEvent)
  | "RemoveAuthorizedDepositorEvent" =>
      some (.Account .RemoveAuthorizedDepositorEvent)
  | "RemoveResourcePreferenceEvent" =>
      some (.Account .RemoveResourcePreferenceEvent)
  | "SetDefaultDepositRuleEvent" =>
      some (.Account .SetDefaultDepositRuleEvent)
  | "SetResourcePreferenceEvent" =>
      some (.Account .SetResourcePreferenceEvent)
  | _ => none

/-- Association-list lookup, modelling `HashMap::get`/`contains_key`
with first-match semantics. -/
def alookup {κ β : Type} [DecidableEq κ] : List (κ × β) → κ → Option β
  | [], _ => none
  | (k, v) :: rest, k2 => if k2 = k then some v else alookup rest k2

/-- A boxed, type-erased handler stored in the registry
(`Box<dyn Any + Send + Sync>` holding a `Box<dyn EventHandler<S, TC>>`).
`fp` is the `TypeId` fingerprint of the erased
`Box<dyn EventHandler<STATE, TRANSACTION_CONTEXT>>` type; `payload`
identifies the concrete handler value. -/
structure ErasedHandler where
  fp : Nat
  payload : Nat
deriving DecidableEq, Repr

/-- `HandlerRegistry` (`src/src/event_handler.rs`): a userspace map keyed by
`(emitter address, event name)`, a native map keyed by `NativeEventType`,
and the signature-fingerprint slot `type_id`. -/
structure HandlerRegistry where
  handlers : List ((String × String) × ErasedHandler)
  native_handlers : List (NativeEventType × ErasedHandler)
  type_id : Option Nat
deriving Repr

/-- `HandlerRegistry::new` / `Default`. -/
def HandlerRegistry.new : HandlerRegistry := ⟨[], [], none⟩

/-- `HandlerRegistry::handler_exists_for_event`
(`src/src/event_handler.rs`, lines 98-140), transcribed arm by arm. -/
def HandlerRegistry.handler_exists_for_event (r : HandlerRegistry)
    (event : Event) : Bool :=
  let native_event_case : EntityType → Bool := fun entity_type =>
    match NativeEventType.resolve event.name entity_type with
    | some event_type => (alookup r.native_handlers event_type).isSome
    | none => false
  let userspace_event_case : String → Bool := fun entity_address =>
    (alookup r.handlers (entity_address, event.name)).isSome
  match event.emitter with
  | .Method entity_address entity_type _ object_module_id =>
      if object_module_id ≠ .Main then
        native_event_case entity_type
      else
        match entity_type with
        | .GlobalGenericComponent => userspace_event_case entity_address
        | .InternalGenericComponent => userspace_event_case entity_address
        | _ => native_event_case entity_type
  | .Function package_address _ => userspace_event_case package_address

/-- `HandlerRegistry::add_handler` (`src/src/event_handler.rs`, lines
150-177).  `fp` is the `TypeId` of the boxed handler type being inserted;
`none` models the `panic!` on a fingerprint mismatch. -/
def HandlerRegistry.add_handler (r : HandlerRegistry) (fp : Nat)
    (emitter name : String) (payload : Nat) : Option HandlerRegistry :=
  match r.type_id with
  | some existing_type_id =>
      if existing_type_id ≠ fp then none
      else some { r with
        handlers := ((emitter, name), ⟨fp, payload⟩) :: r.handlers }
  | none => some { r with
      handlers := ((emitter, name), ⟨fp, payload⟩) :: r.handlers,
      type_id := some fp }

/-- `HandlerRegistry::set_native_handler` (`src/src/event_handler.rs`,
lines 204-224); `none` models the `panic!` on a fingerprint mismatch. -/
def HandlerRegistry.set_native_handler (r : HandlerRegistry) (fp : Nat)
    (event_type : NativeEventType) (payload : Nat) : Option HandlerRegistry :=
  match r.type_id with
  | some existing_type_id =>
      if existing_type_id ≠ fp then none
      else some { r with
        native_handlers := (event_type, ⟨fp, payload⟩) :: r.native_handlers }
  | none => some { r with
      native_handlers := (event_type, ⟨fp, payload⟩) :: r.native_handlers,
      type_id := some fp }

/-- `HandlerRegistry::validate_type_id` (`src/src/event_handler.rs`, lines
239-249): `false` models the `panic!` on a mismatched fingerprint. -/
def HandlerRegistry.validate_type_id (r : HandlerRegistry) (fp : Nat) : Bool :=
  r.type_id = some fp

/-- `HandlerRegistry::get_handler` (`src/src/event_handler.rs`, lines
187-202).  The outer `Option` is panic-freedom (`validate_type_id` and the
downcast `expect`); the inner `Option` is presence of the handler. -/
def HandlerRegistry.get_handler (r : HandlerRegistry) (fp : Nat)
    (emitter name : String) : Option (Option Nat) :=
  if r.validate_type_id fp then
    match alookup r.handlers (emitter, name) with
    | none => some none
    | some h => if h.fp = fp then some (some h.payload) else none
  else none

/-- `HandlerRegistry::get_native_handler` (`src/src/event_handler.rs`,
lines 226-237); `Option` layers as in `get_handler`. -/
def HandlerRegistry.get_native_handler (r : HandlerRegistry) (fp : Nat)
    (event_type : NativeEventType) : Option (Option Nat) :=
  if r.validate_type_id fp then
    match alookup r.native_handlers event_type with
    | none => some none
    | some h => if h.fp = fp then some (some h.payload) else none
  else none

/-- The three-step handler-exists policy exactly as the specification words
it (spec section 4.2), written independently of
`handler_exists_for_event` so the two can be compared. -/
def handlerExistsSpecPolicy (r : HandlerRegistry) (event : Event) : Bool :=
  match event.emitter with
  | .Function package_address _ =>
      (alookup r.handlers (package_address, event.name)).isSome
  | .Method entity_address entity_type _ object_module_id =>
      if object_module_id = .Main ∧
          (entity_type = .GlobalGenericComponent ∨
           entity_type = .InternalGenericComponent) then
        (alookup r.handlers (entity_address, event.name)).isSome
      else
        match NativeEventType.resolve event.name entity_type with
        | some event_type => (alookup r.native_handlers event_type).isSome
        | none => false

/-- `EventHandlerError` (`src/src/error.rs`), parametric in the cause type
(`anyhow::Error` in the source). -/
inductive EventHandlerError (α : Type)
  | EventRetryError (e : α)
  | TransactionRetryError (e : α)
  | UnrecoverableError (e : α)
deriving DecidableEq, Repr

/-- `TransactionHandlerError` (`src/src/error.rs`). -/
inductive TransactionHandlerError (α : Type)
  | TransactionRetryError (e : α)
  | UnrecoverableError (e : α)
deriving DecidableEq, Repr

/-- `TransactionProcessorError` (the processor's result error; the
`src/src/error.rs` iteration names it `TransactionStreamProcessorError`). -/
inductive TransactionProcessorError (α : Type)
  | UnrecoverableError (e : α)
deriving DecidableEq, Repr

/-- `impl From<EventHandlerError> for TransactionHandlerError`
(`src/src/error.rs`, lines 36-50); `none` models the `panic!` on
`EventRetryError`. -/
def TransactionHandlerError.fromEventHandlerError {α : Type} :
    EventHandlerError α → Option (TransactionHandlerError α)
  | .EventRetryError _ => none
  | .TransactionRetryError e => some (.TransactionRetryError e)
  | .UnrecoverableError e => some (.UnrecoverableError e)

/-- One observable action of the processor interpreter: a logger hook, a
retry sleep, or a handler invocation.  `invokeEvent idx h n` records that
the handler with payload id `h` was invoked for the event at index `idx`,
`n` being how often that handler had been invoked before (so the same
event/arguments are passed on every retry; only the environment moves). -/
inductive PAct
  | receiveTransaction (handling is_retry : Bool)
  | finishTransaction (handling : Bool)
  | receiveEvent (idx : Nat) (handling is_retry : Bool)
  | finishEvent (idx : Nat) (handling : Bool)
  | eventRetryLog (idx : Nat) (cause : Nat)
  | txRetryLog (cause : Nat)
  | unrecoverableLog (cause : Nat)
  | sleepEvent
  | sleepTx
  | invokeEvent (idx : Nat) (handler : Nat) (n : Nat)
  | invokeTx (attempt : Nat)
deriving DecidableEq, Repr

/-- A registry mutation an event handler may perform through the
`&mut HandlerRegistry` in its context. -/
inductive RegOp
  | add_handler (fp : Nat) (emitter name : String) (payload : Nat)
  | set_native_handler (fp : Nat) (event_type : NativeEventType) (payload : Nat)
deriving Repr

/-- Apply one registry mutation; `none` models a `panic!` inside the
registry operation. -/
def applyRegOp (r : HandlerRegistry) : RegOp → Option HandlerRegistry
  | .add_handler fp emitter name payload => r.add_handler fp emitter name payload
  | .set_native_handler fp event_type payload =>
      r.set_native_handler fp event_type payload

/-- Apply a list of registry mutations in order. -/
def applyRegOps (r : HandlerRegistry) : List RegOp → Option HandlerRegistry
  | [] => some r
  | op :: rest =>
      match applyRegOp r op with
      | none => none
      | some r2 => applyRegOps r2 rest

/-- The outcome of one handler invocation: the registry mutations the
handler performed and its returned `Result<(), EventHandlerError>`
(`none` models `Ok(())`). -/
structure EHStep where
  regOps : List RegOp
  result : Option (EventHandlerError Nat)

/-- Oracle for event-handler behaviour: given a handler's payload id and
how often that handler has been invoked so far, the outcome of its next
invocation.  This models an async handler whose successive results are
determined by an external environment. -/
abbrev EventOracle := Nat → Nat → EHStep

/-- Per-handler invocation counter update. -/
def bump (inv : Nat → Nat) (h : Nat) : Nat → Nat :=
  fun x => if x = h then inv x + 1 else inv x

/-- Result of a run of (a part of) `process_events`: the emitted action
trace, the final registry, the final invocation counters, and the
propagated error, if any (`none` models `Ok(())`). -/
structure EvOut where
  acts : List PAct
  reg : HandlerRegistry
  inv : Nat → Nat
  err : Option (EventHandlerError Nat)

/-- The event-retry loop of `EventProcessor::process_events`
(`src/radix-event-stream/src/processor.rs`, lines 272-320): the handler
captured (cloned) before the loop is `h`, and it is re-invoked with the same
arguments until it returns something other than `EventRetryError`.
An `EventRetryError` emits the retry-log hook, the retry sleep and the
`receive_event(_, _, true, true)` hook before the next attempt.  Every
other error is returned unchanged.  `fuel` bounds the number of attempts;
`none` models a diverging loop or a handler panicking inside a registry
operation. -/
def eventLoop (hsem : EventOracle) (hasLogger : Bool) (idx h : Nat) :
    Nat → HandlerRegistry → (Nat → Nat) → Option EvOut
  | 0, _, _ => none
  | fuel + 1, reg, inv =>
      let step := hsem h (inv h)
      let inv2 := bump inv h
      match applyRegOps reg step.regOps with
      | none => none
      | some reg2 =>
          match step.result with
          | none => some ⟨[.invokeEvent idx h (inv h)], reg2, inv2, none⟩
          | some (.EventRetryError c) =>
              match eventLoop hsem hasLogger idx h fuel reg2 inv2 with
              | none => none
              | some out =>
                  some ⟨.invokeEvent idx h (inv h) ::
                      ((if hasLogger then [.eventRetryLog idx c] else []) ++
                       [.sleepEvent] ++
                       (if hasLogger then [.receiveEvent idx true true] else []) ++
                       out.acts),
                    out.reg, out.inv, out.err⟩
          | some e => some ⟨[.invokeEvent idx h (inv h)], reg2, inv2, some e⟩

/-- Resolution of the handler for a targeted event
(`src/radix-event-stream/src/processor.rs`, lines 251-271): first the
userspace lookup on `(emitter address, event name)`, then — via `or_else` —
the native path, which panics on a `Function` emitter and unwraps both the
resolver result and the native lookup.  `none` models any of those panics. -/
def resolveEventHandler (r : HandlerRegistry) (fp : Nat) (event : Event) :
    Option Nat :=
  match r.get_handler fp event.emitter.address event.name with
  | none => none
  | some (some h) => some h
  | some none =>
      match event.emitter with
      | .Function _ _ => none
      | .Method _ entity_type _ _ =>
          match NativeEventType.resolve event.name entity_type with
          | none => none
          | some nty =>
              match r.get_native_handler fp nty with
              | none => none
              | some none => none
              | some (some h) => some h

/-- The per-event iteration of `EventProcessor::process_events`
(`src/radix-event-stream/src/processor.rs`, lines 234-329) over the
enumerated events: events without a registered handler are skipped
silently; a targeted event emits `receive_event(_, _, true, false)`, runs
the event-retry loop on the handler captured before the loop, propagates a
non-retry error, and emits `finish_event` on success. -/
def processEventsGo (fp : Nat) (hsem : EventOracle) (hasLogger : Bool)
    (fuel : Nat) :
    List (Nat × Event) → HandlerRegistry → (Nat → Nat) → Option EvOut
  | [], reg, inv => some ⟨[], reg, inv, none⟩
  | (idx, event) :: rest, reg, inv =>
      let handler_exists := reg.handler_exists_for_event event
      if handler_exists then
        let preActs := if hasLogger then [PAct.receiveEvent idx true false] else []
        match resolveEventHandler reg fp event with
        | none => none
        | some h =>
            match eventLoop hsem hasLogger idx h fuel reg inv with
            | none => none
            | some out =>
                match out.err with
                | some e => some ⟨preActs ++ out.acts, out.reg, out.inv, some e⟩
                | none =>
                    let postActs :=
                      if hasLogger then [PAct.finishEvent idx true] else []
                    match processEventsGo fp hsem hasLogger fuel rest
                        out.reg out.inv with
                    | none => none
                    | some out2 =>
                        some ⟨preActs ++ out.acts ++ postActs ++ out2.acts,
                          out2.reg, out2.inv, out2.err⟩
      else processEventsGo fp hsem hasLogger fuel rest reg inv

/-- `EventProcessor::process_events`
(`src/radix-event-stream/src/processor.rs`, lines 228-330). -/
def EventProcessor.process_events (fp : Nat) (hsem : EventOracle)
    (hasLogger : Bool) (fuel : Nat) (tx : Transaction)
    (reg : HandlerRegistry) (inv : Nat → Nat) : Option EvOut :=
  processEventsGo fp hsem hasLogger fuel tx.events.enum reg inv

/-- Result of a transaction-handler invocation as seen by
`process_transaction`. -/
structure TxOut where
  acts : List PAct
  reg : HandlerRegistry
  inv : Nat → Nat
  err : Option (TransactionHandlerError Nat)

/-- A user transaction handler: given the attempt number (0 on the first
invocation), the registry and the invocation counters, it produces its
trace, the mutated registry and counters, and its
`Result<(), TransactionHandlerError>`. -/
abbrev TxHandler := Nat → HandlerRegistry → (Nat → Nat) → Option TxOut

/-- `DefaultTransactionHandler::handle`
(`src/radix-event-stream/src/processor.rs`, lines 196-213): call
`process_events` with a unit transaction context and convert its error with
the `From` impl (the `?` operator); `none` models the conversion's
`panic!` on an escaped `EventRetryError`. -/
def DefaultTransactionHandler.handle (fp : Nat) (hsem : EventOracle)
    (hasLogger : Bool) (fuel : Nat) (tx : Transaction) : TxHandler :=
  fun _attempt reg inv =>
    match EventProcessor.process_events fp hsem hasLogger fuel tx reg inv with
    | none => none
    | some out =>
        match out.err with
        | none => some ⟨out.acts, out.reg, out.inv, none⟩
        | some e =>
            match TransactionHandlerError.fromEventHandlerError e with
            | none => none
            | some te => some ⟨out.acts, out.reg, out.inv, some te⟩

/-- Result of a run of `process_transaction`. -/
structure TxPOut where
  acts : List PAct
  reg : HandlerRegistry
  inv : Nat → Nat
  err : Option (TransactionProcessorError Nat)

/-- The transaction-retry loop of
`TransactionProcessor::process_transaction`
(`src/radix-event-stream/src/processor.rs`, lines 433-483): invoke the
transaction handler; on `TransactionRetryError` emit the retry-log hook,
the retry sleep and `receive_transaction(_, true, true)` and re-invoke with
the same arguments; on `UnrecoverableError` emit the unrecoverable-log hook
and return the error.  This loop only runs when the transaction had a
matching event, so the `handler_exists` flag passed to the retry
`receive_transaction` hook is `true`. -/
def txLoop (th : TxHandler) (hasLogger : Bool) :
    Nat → Nat → HandlerRegistry → (Nat → Nat) → Option TxPOut
  | 0, _, _, _ => none
  | fuel + 1, attempt, reg, inv =>
      match th attempt reg inv with
      | none => none
      | some out =>
          match out.err with
          | none => some ⟨.invokeTx attempt :: out.acts, out.reg, out.inv, none⟩
          | some (.TransactionRetryError c) =>
              match txLoop th hasLogger fuel (attempt + 1) out.reg out.inv with
              | none => none
              | some out2 =>
                  some ⟨.invokeTx attempt ::
                      (out.acts ++
                       (if hasLogger then [.txRetryLog c] else []) ++
                       [.sleepTx] ++
                       (if hasLogger then [.receiveTransaction true true] else []) ++
                       out2.acts),
                    out2.reg, out2.inv, out2.err⟩
          | some (.UnrecoverableError c) =>
              some ⟨.invokeTx attempt ::
                  (out.acts ++
                   (if hasLogger then [.unrecoverableLog c] else [])),
                out.reg, out.inv, some (.UnrecoverableError c)⟩

/-- `TransactionProcessor::process_transaction`
(`src/radix-event-stream/src/processor.rs`, lines 399-492): compute whether
any event has a registered handler, emit
`receive_transaction(_, handler_exists, false)`, skip the transaction with
`finish_transaction(_, false)` when none has, and otherwise run the
transaction-retry loop, finishing with `finish_transaction(_, true)` on
success. -/
def TransactionProcessor.process_transaction (th : TxHandler)
    (hasLogger : Bool) (fuel : Nat) (tx : Transaction)
    (reg : HandlerRegistry) (inv : Nat → Nat) : Option TxPOut :=
  let handler_exists := tx.events.any reg.handler_exists_for_event
  let recvActs :=
    if hasLogger then [PAct.receiveTransaction handler_exists false] else []
  if handler_exists then
    match txLoop th hasLogger fuel 0 reg inv with
    | none => none
    | some out =>
        match out.err with
        | some e => some ⟨recvActs ++ out.acts, out.reg, out.inv, some e⟩
        | none =>
            some ⟨recvActs ++ out.acts ++
                (if hasLogger then [PAct.finishTransaction true] else []),
              out.reg, out.inv, none⟩
  else
    some ⟨recvActs ++ (if hasLogger then [PAct.finishTransaction false] else []),
      reg, inv, none⟩

/-- A row of the `ledger_transactions` table with the columns the
`next_batch` query's predicate and ordering touch
(`src/src/sources/database.rs`, lines 127-190). -/
structure LedgerRow where
  state_version : Nat
  discriminator : String
  receipt_status : String
deriving DecidableEq, Repr

/-- The WHERE predicate of the `next_batch` query:
`discriminator = 'user' AND receipt_status != 'failed' AND
state_version >= $cursor`. -/
def rowMatches (cursor : Nat) (row : LedgerRow) : Bool :=
  (row.discriminator == "user") && (row.receipt_status != "failed") &&
    decide (cursor ≤ row.state_version)

/-- Relational semantics of the `next_batch` SELECT
(`src/src/sources/database.rs`, lines 128-148): the rows of the table
satisfying the WHERE predicate, ordered by `state_version` ascending,
limited to `limit_per_page`. -/
def insertRow (row : LedgerRow) : List LedgerRow → List LedgerRow
  | [] => [row]
  | r2 :: rest =>
      if row.state_version ≤ r2.state_version then row :: r2 :: rest
      else r2 :: insertRow row rest

/-- Insertion sort by ascending `state_version`, the ORDER BY of the
`next_batch` query. -/
def sortRows : List LedgerRow → List LedgerRow
  | [] => []
  | r :: rest => insertRow r (sortRows rest)

def queryRows (table : List LedgerRow) (cursor limit : Nat) : List LedgerRow :=
  (sortRows (table.filter (rowMatches cursor))).take limit

/-- `DatabaseFetcher::next_batch` (`src/src/sources/database.rs`, lines
127-190): run the query and advance the cursor to
`transactions.last().map(|t| t.state_version + 1).unwrap_or(old)`.
Returns the batch and the new cursor. -/
def DatabaseFetcher.next_batch (table : List LedgerRow)
    (cursor limit : Nat) : List LedgerRow × Nat :=
  let transactions := queryRows table cursor limit
  (transactions,
    match transactions.getLast? with
    | some t => t.state_version + 1
    | none => cursor)

/-- One observable action of a source fetcher's `run` loop. -/
inductive FetchAct
  | poll
  | logWarn
  | sleepCaughtUp
  | send (sv : Nat)
deriving DecidableEq, Repr

/-- One iteration of the fetcher `run` loop, common shape of
`DatabaseFetcher::run` (`src/src/sources/database.rs`, lines 192-213) and
`GatewayFetcher::run` (`src/src/sources/gateway.rs`, lines 170-193): poll;
while the poll fails, log a warning and poll again immediately; once a poll
succeeds, sleep the caught-up interval only if the returned batch is empty,
then send every transaction of the batch.  `polls` scripts the successive
poll outcomes (`none` = error, `some batch` = success); `none` overall
means the script ran out while the loop was still retrying. -/
def fetchIteration : List (Option (List Nat)) → Option (List FetchAct)
  | [] => none
  | none :: rest =>
      match fetchIteration rest with
      | none => none
      | some tr => some (.poll :: .logWarn :: tr)
  | some batch :: _ =>
      some (.poll ::
        ((if batch.isEmpty then [FetchAct.sleepCaughtUp] else []) ++
         batch.map FetchAct.send))

/-- The back-off discipline claimed by the spec, as a trace scanner:
after a failed poll (its `logWarn`), a caught-up-interval sleep must occur
before the next poll.  The `waiting` flag records that a failure has been
seen and no sleep yet. -/
def backoffOk : Bool → List FetchAct → Bool
  | _, [] => true
  | true, .poll :: _ => false
  | true, .sleepCaughtUp :: rest => backoffOk false rest
  | true, _ :: rest => backoffOk true rest
  | false, .logWarn :: rest => backoffOk true rest
  | false, _ :: rest => backoffOk false rest

/-- The interleaved `[poll, logWarn]` prefix produced by `k` consecutive
failed poll attempts. -/
def failBlock : Nat → List FetchAct
  | 0 => []
  | k + 1 => .poll :: .logWarn :: failBlock k

/-- Outcome of `TransactionStreamProcessor::run`
(`src/radix-event-stream/src/processor.rs`, lines 156-190): whether the
periodic-report task was spawned, whether it was aborted before `run`
returned, and `run`'s result. -/
structure RunOut where
  spawned : Bool
  aborted : Bool
  result : Option (TransactionProcessorError Nat)
deriving DecidableEq, Repr

/-- The receive loop of `run` (lines 177-189): each received transaction is
processed with `process_transaction(..)?`, so the first unrecoverable
error returns from `run` immediately — before the `handle.abort()` that
only follows the `while` loop.  `outcomes` scripts the
`process_transaction` results for the successive transactions
(`none` = `Ok`). -/
def runGo (spawned : Bool) : List (Option Nat) → RunOut
  | [] => ⟨spawned, spawned, none⟩
  | none :: rest => runGo spawned rest
  | some e :: _ => ⟨spawned, false, some (.UnrecoverableError e)⟩

/-- `TransactionStreamProcessor::run`
(`src/radix-event-stream/src/processor.rs`, lines 156-190): a failing
`stream.start()` returns an unrecoverable error before any task is
spawned; otherwise the periodic-report task is spawned exactly when a
logger is configured, the receive loop runs, and the task is aborted on
the clean-exit path after the loop. -/
def TransactionStreamProcessor.run (startError : Option Nat)
    (hasLogger : Bool) (outcomes : List (Option Nat)) : RunOut :=
  match startError with
  | some e => ⟨false, false, some (.UnrecoverableError e)⟩
  | none => runGo hasLogger outcomes

theorem alookup_mem {κ β : Type} [DecidableEq κ] :
    ∀ (l : List (κ × β)) (k : κ) (v : β),
      alookup l k = some v → ∃ kk, (kk, v) ∈ l := by
  intro l k v
  induction l with
  | nil => intro h; simp [alookup] at h
  | cons kv rest ih =>
      intro h
      rcases kv with ⟨k0, v0⟩
      by_cases hk : k = k0
      · refine ⟨k0, ?_⟩
        simp [alookup, hk] at h
        simp [h]
      · have h2 : alookup rest k = some v := by
          simpa [alookup, hk] using h
        rcases ih h2 with ⟨kk, hm⟩
        exact ⟨kk, List.mem_cons_of_mem _ hm⟩

/-- C3: `handler_exists_for_event` decides membership by exactly the
three-step policy: `Function` emitters use the userspace table keyed by
`(package_address, event_name)`; `Method` emitters with module id `Main`
and a global- or internal-generic-component entity type use the userspace
table keyed by `(entity_address, event_name)`; every other `Method` case
resolves `(event_name, entity_type)` with the native resolver and looks the
resolved kind up in the native table, yielding `false` when resolution
fails. -/
theorem C3_handler_exists_policy (r : HandlerRegistry) (event : Event) :
    r.handler_exists_for_event event = handlerExistsSpecPolicy r event := by
  rcases event with ⟨name, data, emitter⟩
  rcases emitter with ⟨addr, et, g, m⟩ | ⟨pkg, bp⟩
  · cases m <;> cases et <;> rfl
  · rfl

/-- A handler whose every invocation performs no registry mutation and
returns the fixed result `res`. -/
def constOracle (res : Option (EventHandlerError Nat)) : EventOracle :=
  fun _ _ => ⟨[], res⟩

/-- C4: folding an event-handler error into the transaction layer maps
`TransactionRetry(e)` to `TransactionRetry(e)` and `Unrecoverable(e)` to
`Unrecoverable(e)` with the cause unchanged, and faults loudly (`panic`,
modelled as `none`) on `EventRetry`; moreover the event-retry loop itself
propagates a `TransactionRetry` or `Unrecoverable` handler result upward
with kind and cause unchanged, so no other conversion between error kinds
happens in the processor. -/
theorem C4_error_conversion :
    (∀ (α : Type) (c : α),
      TransactionHandlerError.fromEventHandlerError
          (EventHandlerError.TransactionRetryError c) =
        some (TransactionHandlerError.TransactionRetryError c) ∧
      TransactionHandlerError.fromEventHandlerError
          (EventHandlerError.UnrecoverableError c) =
        some (TransactionHandlerError.UnrecoverableError c) ∧
      TransactionHandlerError.fromEventHandlerError
          (EventHandlerError.EventRetryError c) =
        (none : Option (TransactionHandlerError α))) ∧
    (∀ (c idx h fuel : Nat) (reg : HandlerRegistry) (inv : Nat → Nat),
      eventLoop (constOracle (some (.TransactionRetryError c))) true idx h
          (fuel + 1) reg inv =
        some ⟨[.invokeEvent idx h (inv h)], reg, bump inv h,
          some (.TransactionRetryError c)⟩ ∧
      eventLoop (constOracle (some (.UnrecoverableError c))) true idx h
          (fuel + 1) reg inv =
        some ⟨[.invokeEvent idx h (inv h)], reg, bump inv h,
          some (.UnrecoverableError c)⟩) := by
  constructor
  · intro α c
    exact ⟨rfl, rfl, rfl⟩
  · intro c idx h fuel reg inv
    exact ⟨rfl, rfl⟩

/-- C5: the first `add_handler` or `set_native_handler` on a fresh registry
records the handler-type fingerprint; once a fingerprint `fp0` is recorded,
every `add_handler`, `set_native_handler`, `get_handler` or
`get_native_handler` call with a different fingerprint fails as a
programmer-visible panic (modelled as `none`), while calls with the
matching fingerprint succeed (for the lookups, under the registry invariant
that every stored handler carries the recorded fingerprint, which the
insertion operations maintain). -/
theorem C5_fingerprint_discipline :
    (HandlerRegistry.new.type_id = none) ∧
    (∀ fp em nm p, ∃ r2,
      HandlerRegistry.new.add_handler fp em nm p = some r2 ∧
      r2.type_id = some fp) ∧
    (∀ fp t p, ∃ r2,
      HandlerRegistry.new.set_native_handler fp t p = some r2 ∧
      r2.type_id = some fp) ∧
    (∀ (r : HandlerRegistry) (fp0 fp : Nat) em nm t p,
      r.type_id = some fp0 → fp ≠ fp0 →
      r.add_handler fp em nm p = none ∧
      r.set_native_handler fp t p = none ∧
      r.get_handler fp em nm = none ∧
      r.get_native_handler fp t = none) ∧
    (∀ (r : HandlerRegistry) (fp0 : Nat) em nm t p,
      r.type_id = some fp0 →
      (∀ kv ∈ r.handlers, kv.2.fp = fp0) →
      (∀ kv ∈ r.native_handlers, kv.2.fp = fp0) →
      (r.add_handler fp0 em nm p).isSome ∧
      (r.set_native_handler fp0 t p).isSome ∧
      (r.get_handler fp0 em nm).isSome ∧
      (r.get_native_handler fp0 t).isSome) := by
  refine ⟨rfl, ?_, ?_, ?_, ?_⟩
  · intro fp em nm p
    exact ⟨_, rfl, rfl⟩
  · intro fp t p
    exact ⟨_, rfl, rfl⟩
  · intro r fp0 fp em nm t p htid hne
    have hne2 : fp0 ≠ fp := fun h => hne h.symm
    refine ⟨?_, ?_, ?_, ?_⟩
    · simp [HandlerRegistry.add_handler, htid, hne2]
    · simp [HandlerRegistry.set_native_handler, htid, hne2]
    · simp [HandlerRegistry.get_handler, HandlerRegistry.validate_type_id,
        htid, hne]
      exact fun h => absurd h hne2
    · simp [HandlerRegistry.get_native_handler, HandlerRegistry.validate_type_id,
        htid, hne]
      exact fun h => absurd h hne2
  · intro r fp0 em nm t p htid hinv hninv
    refine ⟨?_, ?_, ?_, ?_⟩
    · simp [HandlerRegistry.add_handler, htid]
    · simp [HandlerRegistry.set_native_handler, htid]
    · unfold HandlerRegistry.get_handler
      have hv : r.validate_type_id fp0 = true := by
        simp [HandlerRegistry.validate_type_id, htid]
      rw [if_pos hv]
      cases hl : alookup r.handlers (em, nm) with
      | none => simp
      | some h =>
          rcases alookup_mem _ _ _ hl with ⟨kk, hm⟩
          have : h.fp = fp0 := hinv (kk, h) hm
          simp [this]
    · unfold HandlerRegistry.get_native_handler
      have hv : r.validate_type_id fp0 = true := by
        simp [HandlerRegistry.validate_type_id, htid]
      rw [if_pos hv]
      cases hl : alookup r.native_handlers t with
      | none => simp
      | some h =>
          rcases alookup_mem _ _ _ hl with ⟨kk, hm⟩
          have : h.fp = fp0 := hninv (kk, h) hm
          simp [this]

/-- A registry holding one userspace handler, used to exercise
`C5_fingerprint_discipline` at a concrete input. -/
def c5reg : HandlerRegistry :=
  ⟨[(("addr_a", "EvA"), ⟨3, 11⟩)], [], some 3⟩

theorem C5_fingerprint_discipline_witness :
    c5reg.type_id = some 3 ∧
    c5reg.add_handler 4 "x" "y" 9 = none ∧
    c5reg.get_handler 4 "addr_a" "EvA" = none ∧
    (c5reg.add_handler 3 "x" "y" 9).isSome ∧
    (c5reg.get_handler 3 "addr_a" "EvA").isSome := by
  have h4 := (C5_fingerprint_discipline.2.2.2.1 c5reg 3 4 "x" "y"
    (NativeEventType.Metadata .SetMetadataEvent) 9 rfl (by decide))
  have h5 := (C5_fingerprint_discipline.2.2.2.2 c5reg 3 "x" "y"
    (NativeEventType.Metadata .SetMetadataEvent) 9 rfl
    (by decide) (by decide))
  exact ⟨rfl, h4.1, h4.2.2.1, h5.1, h5.2.2.1⟩

/-- C6: a transaction none of whose events has a registered handler does
not invoke the transaction handler or any event handler (the produced
trace has no invocation actions at all and the handler argument is never
applied), invokes the logger's `receive_transaction` and
`finish_transaction` hooks with `handling = false`, and returns success
leaving registry and counters untouched. -/
theorem C6_skip_law (th : TxHandler) (fuel : Nat) (tx : Transaction)
    (reg : HandlerRegistry) (inv : Nat → Nat)
    (h : ∀ e ∈ tx.events, reg.handler_exists_for_event e = false) :
    TransactionProcessor.process_transaction th true fuel tx reg inv =
      some ⟨[.receiveTransaction false false, .finishTransaction false],
        reg, inv, none⟩ := by
  have hany : tx.events.any reg.handler_exists_for_event = false := by
    rw [List.any_eq_false]
    intro e he
    simp [h e he]
  simp [TransactionProcessor.process_transaction, hany]

/-- A transaction handler that always fails unrecoverably, and a
transaction with a single untargeted event: concrete input for
`C6_skip_law`. -/
def c6th : TxHandler := fun _ reg inv =>
  some ⟨[], reg, inv, some (.UnrecoverableError 99)⟩

def c6tx : Transaction :=
  ⟨"ih", 7, none, [⟨"SomeEvent", [], .Function "pkg_p" "bp"⟩]⟩

theorem C6_skip_law_witness :
    (∀ e ∈ c6tx.events,
      HandlerRegistry.new.handler_exists_for_event e = false) ∧
    TransactionProcessor.process_transaction c6th true 0 c6tx
        HandlerRegistry.new (fun _ => 0) =
      some ⟨[.receiveTransaction false false, .finishTransaction false],
        HandlerRegistry.new, (fun _ => 0), none⟩ :=
  ⟨by decide, C6_skip_law c6th 0 c6tx HandlerRegistry.new (fun _ => 0)
    (by decide)⟩

theorem mem_insertRow (row x : LedgerRow) :
    ∀ (l : List LedgerRow), x ∈ insertRow row l ↔ x = row ∨ x ∈ l := by
  intro l
  induction l with
  | nil => simp [insertRow]
  | cons r2 rest ih =>
      by_cases hle : row.state_version ≤ r2.state_version
      · simp [insertRow, hle]
      · simp only [insertRow, if_neg hle, List.mem_cons, ih]
        tauto

theorem mem_sortRows (x : LedgerRow) :
    ∀ (l : List LedgerRow), x ∈ sortRows l ↔ x ∈ l := by
  intro l
  induction l with
  | nil => simp [sortRows]
  | cons r rest ih =>
      simp only [sortRows, mem_insertRow, List.mem_cons, ih]

theorem insertRow_sorted (row : LedgerRow) :
    ∀ (l : List LedgerRow),
      l.Pairwise (fun a b => a.state_version ≤ b.state_version) →
      (insertRow row l).Pairwise
        (fun a b => a.state_version ≤ b.state_version) := by
  intro l
  induction l with
  | nil => intro _; simp [insertRow]
  | cons r2 rest ih =>
      intro hp
      by_cases hle : row.state_version ≤ r2.state_version
      · rw [insertRow, if_pos hle]
        refine List.Pairwise.cons ?_ hp
        intro b hb
        rcases List.mem_cons.mp hb with rfl | hb2
        · exact hle
        · exact le_trans hle (List.rel_of_pairwise_cons hp hb2)
      · rw [insertRow, if_neg hle]
        refine List.Pairwise.cons ?_ (ih hp.of_cons)
        intro b hb
        rcases (mem_insertRow row b rest).mp hb with rfl | hb2
        · exact le_of_not_le hle
        · exact List.rel_of_pairwise_cons hp hb2

theorem sortRows_sorted :
    ∀ (l : List LedgerRow),
      (sortRows l).Pairwise (fun a b => a.state_version ≤ b.state_version) := by
  intro l
  induction l with
  | nil => simp [sortRows]
  | cons r rest ih => exact insertRow_sorted r _ ih

theorem queryRows_mem (table : List LedgerRow) (cursor limit : Nat)
    (row : LedgerRow) (h : row ∈ queryRows table cursor limit) :
    row ∈ table ∧ rowMatches cursor row = true := by
  have h1 : row ∈ sortRows (table.filter (rowMatches cursor)) :=
    List.take_subset _ _ h
  have h2 : row ∈ table.filter (rowMatches cursor) :=
    (mem_sortRows row _).mp h1
  exact List.mem_filter.mp h2

theorem queryRows_sorted (table : List LedgerRow) (cursor limit : Nat) :
    (queryRows table cursor limit).Pairwise
      (fun a b => a.state_version ≤ b.state_version) :=
  (sortRows_sorted _).sublist (List.take_sublist limit _)

theorem sorted_getLast?_max :
    ∀ (l : List LedgerRow),
      l.Pairwise (fun a b => a.state_version ≤ b.state_version) →
      ∀ (m : LedgerRow), l.getLast? = some m →
      ∀ x ∈ l, x.state_version ≤ m.state_version := by
  intro l
  induction l with
  | nil => intro _ m hm; simp at hm
  | cons a rest ih =>
      intro hp m hm x hx
      cases rest with
      | nil =>
          simp only [List.getLast?_singleton, Option.some.injEq] at hm
          rcases List.mem_singleton.mp hx with rfl
          rw [hm]
      | cons b rest2 =>
          have hm2 : (b :: rest2).getLast? = some m := by
            rw [List.getLast?_cons_cons] at hm
            exact hm
          have hmem : m ∈ b :: rest2 :=
            List.mem_of_mem_getLast? (by rw [hm2]; rfl)
          rcases List.mem_cons.mp hx with rfl | hx2
          · exact List.rel_of_pairwise_cons hp hmem
          · exact ih hp.of_cons m hm2 x hx2

/-- C7: each database poll returns rows of the table satisfying
`discriminator = 'user' AND receipt_status != 'failed' AND
state_version >= cursor`, in ascending `state_version` order, at most
`limit_per_page` of them; after a successful poll the cursor becomes the
maximum returned `state_version` plus one, and it is unchanged when the
returned batch is empty. -/
theorem C7_database_poll (table : List LedgerRow) (cursor limit : Nat) :
    (∀ row ∈ (DatabaseFetcher.next_batch table cursor limit).1,
      row ∈ table ∧ row.discriminator = "user" ∧
      row.receipt_status ≠ "failed" ∧ cursor ≤ row.state_version) ∧
    ((DatabaseFetcher.next_batch table cursor limit).1).Pairwise
      (fun a b => a.state_version ≤ b.state_version) ∧
    ((DatabaseFetcher.next_batch table cursor limit).1).length ≤ limit ∧
    ((DatabaseFetcher.next_batch table cursor limit).1 = [] →
      (DatabaseFetcher.next_batch table cursor limit).2 = cursor) ∧
    ((DatabaseFetcher.next_batch table cursor limit).1 ≠ [] →
      ∃ m ∈ (DatabaseFetcher.next_batch table cursor limit).1,
        (∀ row ∈ (DatabaseFetcher.next_batch table cursor limit).1,
          row.state_version ≤ m.state_version) ∧
        (DatabaseFetcher.next_batch table cursor limit).2 =
          m.state_version + 1) := by
  refine ⟨?_, ?_, ?_, ?_, ?_⟩
  · intro row hr
    rcases queryRows_mem table cursor limit row hr with ⟨hmem, hmat⟩
    simp only [rowMatches, Bool.and_eq_true, beq_iff_eq, bne_iff_ne,
      decide_eq_true_eq] at hmat
    exact ⟨hmem, hmat.1.1, hmat.1.2, hmat.2⟩
  · exact queryRows_sorted table cursor limit
  · exact List.length_take_le _ _
  · intro hempty
    show (match (queryRows table cursor limit).getLast? with
      | some t => t.state_version + 1
      | none => cursor) = cursor
    rw [show (DatabaseFetcher.next_batch table cursor limit).1 =
      queryRows table cursor limit from rfl] at hempty
    rw [hempty]
    rfl
  · intro hne
    rw [show (DatabaseFetcher.next_batch table cursor limit).1 =
      queryRows table cursor limit from rfl] at hne
    cases hl : (queryRows table cursor limit).getLast? with
    | none => exact absurd (List.getLast?_eq_none_iff.mp hl) hne
    | some m =>
        refine ⟨m, List.mem_of_mem_getLast?
          (show m ∈ (queryRows table cursor limit).getLast? by rw [hl]; rfl),
          ?_, ?_⟩
        · exact sorted_getLast?_max _ (queryRows_sorted table cursor limit) m hl
        · show (match (queryRows table cursor limit).getLast? with
            | some t => t.state_version + 1
            | none => cursor) = _
          rw [hl]

/-- A three-row table that exercises `C7_database_poll`: the failed row is
excluded, the two user rows come back in ascending order, and the cursor
advances past the larger of them. -/
def c7table : List LedgerRow :=
  [⟨12, "user", "succeeded"⟩, ⟨10, "user", "failed"⟩, ⟨11, "user", "succeeded"⟩]

theorem C7_database_poll_witness :
    (DatabaseFetcher.next_batch c7table 10 5).1 =
      [⟨11, "user", "succeeded"⟩, ⟨12, "user", "succeeded"⟩] ∧
    (DatabaseFetcher.next_batch c7table 10 5).2 = 13 ∧
    (DatabaseFetcher.next_batch c7table 10 5).1 ≠ [] ∧
    ∃ m ∈ (DatabaseFetcher.next_batch c7table 10 5).1,
      (∀ row ∈ (DatabaseFetcher.next_batch c7table 10 5).1,
        row.state_version ≤ m.state_version) ∧
      (DatabaseFetcher.next_batch c7table 10 5).2 = m.state_version + 1 := by
  refine ⟨by decide, by decide, by decide, ?_⟩
  exact (C7_database_poll c7table 10 5).2.2.2.2 (by decide)

/-- C8 counterexample: with two consecutive failed polls followed by a
successful empty poll, the fetcher `run` loop retries immediately — the
trace has no caught-up-interval sleep between the failed attempts (the
sleep only follows the successful empty batch), refuting the claim that
the caught-up interval is a back-off floor between failed polls. -/
theorem C8_backoff_counterexample :
    fetchIteration [none, none, some []] =
      some [.poll, .logWarn, .poll, .logWarn, .poll, .sleepCaughtUp] ∧
    backoffOk false
      [.poll, .logWarn, .poll, .logWarn, .poll, .sleepCaughtUp] = false :=
  ⟨rfl, rfl⟩

/-- C8 amended: a poll that fails is logged and retried immediately and
indefinitely without surfacing the error (after any number `k` of
consecutive failures the iteration still reaches the next success and
sends its batch); no delay separates consecutive failed attempts, and the
caught-up-interval sleep occurs only after a successful poll that returned
an empty batch.  The second conjunct records that whenever at least one
poll fails, the back-off discipline claimed by the spec is violated. -/
theorem C8_transient_error_retry (k : Nat) (b : List Nat)
    (rest : List (Option (List Nat))) :
    fetchIteration (List.replicate k none ++ some b :: rest) =
      some (failBlock k ++ .poll ::
        ((if b.isEmpty then [FetchAct.sleepCaughtUp] else []) ++
         b.map FetchAct.send)) ∧
    (∀ tail, backoffOk false (failBlock (k + 1) ++ .poll :: tail) = false) := by
  constructor
  · induction k with
    | zero => simp [fetchIteration, failBlock]
    | succ n ih => simp [List.replicate_succ, fetchIteration, ih, failBlock]
  · intro tail
    cases k <;> rfl

theorem C8_transient_error_retry_witness :
    fetchIteration [none, none, some [4, 5]] =
      some [.poll, .logWarn, .poll, .logWarn, .poll, .send 4, .send 5] :=
  (C8_transient_error_retry 2 [4, 5] []).1

/-- C9 counterexample: with a logger configured (so the periodic-report
task is spawned) and a transaction whose processing returns an
unrecoverable error, `run` exits with the error but the task is not
aborted — the `?` in the receive loop returns before the
`handle.abort()` that only follows the loop. -/
theorem C9_abort_counterexample :
    (TransactionStreamProcessor.run none true [some 7]).spawned = true ∧
    (TransactionStreamProcessor.run none true [some 7]).result =
      some (.UnrecoverableError 7) ∧
    (TransactionStreamProcessor.run none true [some 7]).aborted = false :=
  ⟨rfl, rfl, rfl⟩

theorem runGo_spec (outcomes : List (Option Nat)) :
    ∀ (sp : Bool),
      (runGo sp outcomes).spawned = sp ∧
      ((runGo sp outcomes).result = none → (runGo sp outcomes).aborted = sp) ∧
      (∀ e, (runGo sp outcomes).result = some (.UnrecoverableError e) →
        (runGo sp outcomes).aborted = false) := by
  induction outcomes with
  | nil => exact fun sp => ⟨rfl, fun _ => rfl, fun e h => by cases h⟩
  | cons o rest ih =>
      intro sp
      cases o with
      | none => exact ih sp
      | some e0 =>
          refine ⟨rfl, ?_, ?_⟩
          · intro h; cases h
          · intro e _; rfl

/-- C9 amended: the periodic-report task is aborted before `run` returns
only on the clean-exit path — if `run` returns success the task was
aborted exactly when it had been spawned, while whenever `run` exits with
an unrecoverable error (from a failing `start` or from
`process_transaction`) the task is not aborted. -/
theorem C9_abort_only_on_clean_exit (startError : Option Nat)
    (hasLogger : Bool) (outcomes : List (Option Nat)) :
    ((TransactionStreamProcessor.run startError hasLogger outcomes).result =
        none →
      (TransactionStreamProcessor.run startError hasLogger outcomes).aborted =
        (TransactionStreamProcessor.run startError hasLogger
          outcomes).spawned) ∧
    (∀ e, (TransactionStreamProcessor.run startError hasLogger
        outcomes).result = some (.UnrecoverableError e) →
      (TransactionStreamProcessor.run startError hasLogger
        outcomes).aborted = false) := by
  cases startError with
  | some e0 =>
      refine ⟨?_, ?_⟩
      · intro h; cases h
      · intro e _; rfl
  | none =>
      rcases runGo_spec outcomes hasLogger with ⟨h1, h2, h3⟩
      exact ⟨fun h => (h2 h).trans h1.symm, h3⟩

theorem C9_abort_only_on_clean_exit_witness :
    (TransactionStreamProcessor.run none true [none]).aborted =
      (TransactionStreamProcessor.run none true [none]).spawned ∧
    (TransactionStreamProcessor.run none true [none, some 3]).aborted =
      false :=
  ⟨(C9_abort_only_on_clean_exit none true [none]).1 rfl,
   (C9_abort_only_on_clean_exit none true [none, some 3]).2 3 rfl⟩

/-- `true` unless the action is an event-handler invocation by a handler
other than `h`. -/
def invokedBy (h : Nat) : PAct → Bool
  | .invokeEvent _ hd _ => hd == h
  | _ => true

theorem eventLoop_invokes_captured (hsem : EventOracle) (lg : Bool)
    (idx h : Nat) :
    ∀ (fuel : Nat) (reg : HandlerRegistry) (inv : Nat → Nat) (out : EvOut),
      eventLoop hsem lg idx h fuel reg inv = some out →
      out.acts.all (invokedBy h) = true := by
  intro fuel
  induction fuel with
  | zero => intro reg inv out h0; simp [eventLoop] at h0
  | succ n ih =>
      intro reg inv out h0
      simp only [eventLoop] at h0
      split at h0
      · cases h0
      · rename_i reg2 happ
        split at h0
        · cases h0
          simp [invokedBy]
        · rename_i c hres
          split at h0
          · cases h0
          · rename_i out2 hrec
            cases h0
            have hall := ih _ _ _ hrec
            cases lg <;>
              simp [List.all_cons, List.all_append, invokedBy, hall]
        · rename_i e hres
          cases h0
          simp [invokedBy]

/-- A registry mapping the key `("addr", "Ev")` to handler `5`; handler
`5`'s first invocation replaces that entry with handler `7` and asks for an
event retry, and its second invocation succeeds; handler `7` always
succeeds.  The transaction emits two events under that same key. -/
def c10reg : HandlerRegistry := ⟨[(("addr", "Ev"), ⟨0, 5⟩)], [], some 0⟩

def c10sem : EventOracle := fun h n =>
  if h = 5 then
    (if n = 0 then ⟨[.add_handler 0 "addr" "Ev" 7], some (.EventRetryError 3)⟩
     else ⟨[], none⟩)
  else ⟨[], none⟩

def c10tx : Transaction :=
  ⟨"ih", 1, none,
    [⟨"Ev", [], .Function "addr" "bp"⟩, ⟨"Ev", [], .Function "addr" "bp"⟩]⟩

/-- C10: within one event's retry loop every invocation uses the handler
clone captured before the first invocation — every `invokeEvent` action an
`eventLoop` run emits carries the captured handler id — and in the
concrete scenario where that handler's first invocation replaces the
registry entry stored under its own `(emitter, name)` key, the retry still
invokes the original handler (`5`) while the next event under the same key
is dispatched to the replacement (`7`). -/
theorem C10_retry_uses_captured_handler :
    (∀ (hsem : EventOracle) (lg : Bool) (idx h fuel : Nat)
        (reg : HandlerRegistry) (inv : Nat → Nat) (out : EvOut),
      eventLoop hsem lg idx h fuel reg inv = some out →
      out.acts.all (invokedBy h) = true) ∧
    (Option.map EvOut.acts
        (EventProcessor.process_events 0 c10sem true 5 c10tx c10reg
          (fun _ => 0)) =
      some [.receiveEvent 0 true false, .invokeEvent 0 5 0,
        .eventRetryLog 0 3, .sleepEvent, .receiveEvent 0 true true,
        .invokeEvent 0 5 1, .finishEvent 0 true, .receiveEvent 1 true false,
        .invokeEvent 1 7 0, .finishEvent 1 true]) :=
  ⟨fun hsem lg idx h fuel reg inv out h0 =>
      eventLoop_invokes_captured hsem lg idx h fuel reg inv out h0,
   rfl⟩

theorem C10_retry_uses_captured_handler_witness :
    Option.map (fun o => o.acts.all (invokedBy 5))
      (eventLoop c10sem true 0 5 3 c10reg (fun _ => 0)) = some true := by
  cases hr : eventLoop c10sem true 0 5 3 c10reg (fun _ => 0) with
  | none =>
      have hs : (eventLoop c10sem true 0 5 3 c10reg
          (fun _ => 0)).isSome = true := rfl
      rw [hr] at hs
      cases hs
  | some out =>
      have hall := C10_retry_uses_captured_handler.1 c10sem true 0 5 3
        c10reg (fun _ => 0) out hr
      simp [hall]

theorem eventLoop_ok (hsem : EventOracle) (lg : Bool) (idx h fuel : Nat)
    (reg : HandlerRegistry) (inv : Nat → Nat)
    (hstep : hsem h (inv h) = ⟨[], none⟩) :
    eventLoop hsem lg idx h (fuel + 1) reg inv =
      some ⟨[.invokeEvent idx h (inv h)], reg, bump inv h, none⟩ := by
  simp only [eventLoop, hstep, applyRegOps]

theorem eventLoop_txretry (hsem : EventOracle) (lg : Bool)
    (idx h fuel : Nat) (reg : HandlerRegistry) (inv : Nat → Nat) (c : Nat)
    (hstep : hsem h (inv h) = ⟨[], some (.TransactionRetryError c)⟩) :
    eventLoop hsem lg idx h (fuel + 1) reg inv =
      some ⟨[.invokeEvent idx h (inv h)], reg, bump inv h,
        some (.TransactionRetryError c)⟩ := by
  simp only [eventLoop, hstep, applyRegOps]

theorem eventLoop_unrec (hsem : EventOracle) (lg : Bool)
    (idx h fuel : Nat) (reg : HandlerRegistry) (inv : Nat → Nat) (c : Nat)
    (hstep : hsem h (inv h) = ⟨[], some (.UnrecoverableError c)⟩) :
    eventLoop hsem lg idx h (fuel + 1) reg inv =
      some ⟨[.invokeEvent idx h (inv h)], reg, bump inv h,
        some (.UnrecoverableError c)⟩ := by
  simp only [eventLoop, hstep, applyRegOps]

theorem processEventsGo_nil (fp : Nat) (hsem : EventOracle) (lg : Bool)
    (fuel : Nat) (reg : HandlerRegistry) (inv : Nat → Nat) :
    processEventsGo fp hsem lg fuel [] reg inv = some ⟨[], reg, inv, none⟩ :=
  rfl

theorem processEventsGo_cons_skip (fp : Nat) (hsem : EventOracle) (lg : Bool)
    (fuel idx : Nat) (ev : Event) (rest : List (Nat × Event))
    (reg : HandlerRegistry) (inv : Nat → Nat)
    (hex : reg.handler_exists_for_event ev = false) :
    processEventsGo fp hsem lg fuel ((idx, ev) :: rest) reg inv =
      processEventsGo fp hsem lg fuel rest reg inv := by
  simp only [processEventsGo, hex, Bool.false_eq_true, if_false]

theorem processEventsGo_cons_targeted (fp : Nat) (hsem : EventOracle)
    (lg : Bool) (fuel idx : Nat) (ev : Event) (rest : List (Nat × Event))
    (reg : HandlerRegistry) (inv : Nat → Nat) (h : Nat) (out1 out2 : EvOut)
    (hex : reg.handler_exists_for_event ev = true)
    (hres : resolveEventHandler reg fp ev = some h)
    (hloop : eventLoop hsem lg idx h fuel reg inv = some out1)
    (herr : out1.err = none)
    (hrest : processEventsGo fp hsem lg fuel rest out1.reg out1.inv =
      some out2) :
    processEventsGo fp hsem lg fuel ((idx, ev) :: rest) reg inv =
      some ⟨(if lg then [PAct.receiveEvent idx true false] else []) ++
          out1.acts ++ (if lg then [PAct.finishEvent idx true] else []) ++
          out2.acts,
        out2.reg, out2.inv, out2.err⟩ := by
  simp only [processEventsGo, hex, if_true, hres, hloop, herr, hrest]

theorem processEventsGo_cons_err (fp : Nat) (hsem : EventOracle)
    (lg : Bool) (fuel idx : Nat) (ev : Event) (rest : List (Nat × Event))
    (reg : HandlerRegistry) (inv : Nat → Nat) (h : Nat) (out1 : EvOut)
    (e : EventHandlerError Nat)
    (hex : reg.handler_exists_for_event ev = true)
    (hres : resolveEventHandler reg fp ev = some h)
    (hloop : eventLoop hsem lg idx h fuel reg inv = some out1)
    (herr : out1.err = some e) :
    processEventsGo fp hsem lg fuel ((idx, ev) :: rest) reg inv =
      some ⟨(if lg then [PAct.receiveEvent idx true false] else []) ++
          out1.acts,
        out1.reg, out1.inv, some e⟩ := by
  simp only [processEventsGo, hex, if_true, hres, hloop, herr]

theorem txLoop_ok (th : TxHandler) (lg : Bool) (fuel attempt : Nat)
    (reg : HandlerRegistry) (inv : Nat → Nat) (out1 : TxOut)
    (hth : th attempt reg inv = some out1) (herr : out1.err = none) :
    txLoop th lg (fuel + 1) attempt reg inv =
      some ⟨.invokeTx attempt :: out1.acts, out1.reg, out1.inv, none⟩ := by
  simp only [txLoop, hth, herr]

theorem txLoop_retry (th : TxHandler) (lg : Bool) (fuel attempt : Nat)
    (reg : HandlerRegistry) (inv : Nat → Nat) (out1 : TxOut)
    (out2 : TxPOut) (c : Nat)
    (hth : th attempt reg inv = some out1)
    (herr : out1.err = some (.TransactionRetryError c))
    (hrest : txLoop th lg fuel (attempt + 1) out1.reg out1.inv = some out2) :
    txLoop th lg (fuel + 1) attempt reg inv =
      some ⟨.invokeTx attempt ::
          (out1.acts ++ (if lg then [PAct.txRetryLog c] else []) ++
           [PAct.sleepTx] ++
           (if lg then [PAct.receiveTransaction true true] else []) ++
           out2.acts),
        out2.reg, out2.inv, out2.err⟩ := by
  simp only [txLoop, hth, herr, hrest]

theorem txLoop_unrec (th : TxHandler) (lg : Bool) (fuel attempt : Nat)
    (reg : HandlerRegistry) (inv : Nat → Nat) (out1 : TxOut) (c : Nat)
    (hth : th attempt reg inv = some out1)
    (herr : out1.err = some (.UnrecoverableError c)) :
    txLoop th lg (fuel + 1) attempt reg inv =
      some ⟨.invokeTx attempt ::
          (out1.acts ++ (if lg then [PAct.unrecoverableLog c] else [])),
        out1.reg, out1.inv, some (.UnrecoverableError c)⟩ := by
  simp only [txLoop, hth, herr]

theorem default_handle_ok (fp : Nat) (hsem : EventOracle) (lg : Bool)
    (fuel : Nat) (tx : Transaction) (attempt : Nat)
    (reg : HandlerRegistry) (inv : Nat → Nat) (out : EvOut)
    (hpe : EventProcessor.process_events fp hsem lg fuel tx reg inv =
      some out)
    (herr : out.err = none) :
    DefaultTransactionHandler.handle fp hsem lg fuel tx attempt reg inv =
      some ⟨out.acts, out.reg, out.inv, none⟩ := by
  simp only [DefaultTransactionHandler.handle, hpe, herr]

theorem default_handle_err (fp : Nat) (hsem : EventOracle) (lg : Bool)
    (fuel : Nat) (tx : Transaction) (attempt : Nat)
    (reg : HandlerRegistry) (inv : Nat → Nat) (out : EvOut)
    (e : EventHandlerError Nat) (te : TransactionHandlerError Nat)
    (hpe : EventProcessor.process_events fp hsem lg fuel tx reg inv =
      some out)
    (herr : out.err = some e)
    (hconv : TransactionHandlerError.fromEventHandlerError e = some te) :
    DefaultTransactionHandler.handle fp hsem lg fuel tx attempt reg inv =
      some ⟨out.acts, out.reg, out.inv, some te⟩ := by
  simp only [DefaultTransactionHandler.handle, hpe, herr, hconv]

theorem process_transaction_handled (th : TxHandler) (lg : Bool)
    (fuel : Nat) (tx : Transaction) (reg : HandlerRegistry)
    (inv : Nat → Nat) (out : TxPOut)
    (hex : tx.events.any reg.handler_exists_for_event = true)
    (hloop : txLoop th lg fuel 0 reg inv = some out)
    (herr : out.err = none) :
    TransactionProcessor.process_transaction th lg fuel tx reg inv =
      some ⟨(if lg then [PAct.receiveTransaction true false] else []) ++
          out.acts ++ (if lg then [PAct.finishTransaction true] else []),
        out.reg, out.inv, none⟩ := by
  simp only [TransactionProcessor.process_transaction, hex, if_true,
    hloop, herr]

theorem process_transaction_err (th : TxHandler) (lg : Bool)
    (fuel : Nat) (tx : Transaction) (reg : HandlerRegistry)
    (inv : Nat → Nat) (out : TxPOut) (e : TransactionProcessorError Nat)
    (hex : tx.events.any reg.handler_exists_for_event = true)
    (hloop : txLoop th lg fuel 0 reg inv = some out)
    (herr : out.err = some e) :
    TransactionProcessor.process_transaction th lg fuel tx reg inv =
      some ⟨(if lg then [PAct.receiveTransaction true false] else []) ++
          out.acts,
        out.reg, out.inv, some e⟩ := by
  simp only [TransactionProcessor.process_transaction, hex, if_true,
    hloop, herr]

def c1reg : HandlerRegistry :=
  ⟨[(("pB", "EB"), ⟨0, 10⟩), (("pA", "EA"), ⟨0, 11⟩), (("pC", "EC"), ⟨0, 12⟩)],
    [], some 0⟩

def evB : Event := ⟨"EB", [], .Function "pB" "b"⟩

def evA : Event := ⟨"EA", [], .Function "pA" "b"⟩

def evX : Event := ⟨"EX", [], .Function "pX" "b"⟩

def evC : Event := ⟨"EC", [], .Function "pC" "b"⟩

def c1tx : Transaction := ⟨"ih", 1, none, [evB, evA, evX, evC]⟩

def c1sem (K c : Nat) : EventOracle := fun h n =>
  if h = 11 then
    (if n < K then ⟨[], some (.EventRetryError c)⟩ else ⟨[], none⟩)
  else ⟨[], none⟩

def retrySeq (c : Nat) : Nat → Nat → List PAct
  | _, 0 => []
  | a, n + 1 =>
      .invokeEvent 1 11 a :: .eventRetryLog 1 c :: .sleepEvent ::
        .receiveEvent 1 true true :: retrySeq c (a + 1) n

theorem c1_loop (K c : Nat) :
    ∀ (m fuel : Nat) (reg : HandlerRegistry) (inv : Nat → Nat),
      inv 11 + m = K → m < fuel →
      ∃ out, eventLoop (c1sem K c) true 1 11 fuel reg inv = some out ∧
        out.acts = retrySeq c (inv 11) m ++ [.invokeEvent 1 11 K] ∧
        out.reg = reg ∧
        out.err = none ∧
        out.inv = fun x => if x = 11 then K + 1 else inv x := by
  intro m
  induction m with
  | zero =>
      intro fuel reg inv hK hf
      cases fuel with
      | zero => exact absurd hf (by omega)
      | succ f =>
          have hK0 : inv 11 = K := by omega
          have hstep : c1sem K c 11 (inv 11) = ⟨[], none⟩ := by
            simp [c1sem, hK0]
          refine ⟨_, eventLoop_ok (c1sem K c) true 1 11 f reg inv hstep,
            ?_, rfl, rfl, ?_⟩
          · simp [retrySeq, hK0]
          · funext x
            by_cases hx : x = 11
            · subst hx; simp [bump, hK0]
            · simp [bump, hx]
  | succ n ih =>
      intro fuel reg inv hK hf
      cases fuel with
      | zero => exact absurd hf (by omega)
      | succ f =>
          have hlt : inv 11 < K := by omega
          have hstep : c1sem K c 11 (inv 11) =
              ⟨[], some (.EventRetryError c)⟩ := by
            simp [c1sem, hlt]
          have hK2 : (bump inv 11) 11 + n = K := by
            simp [bump]; omega
          have hf2 : n < f := by omega
          rcases ih f reg (bump inv 11) hK2 hf2 with
            ⟨out2, hrec, hacts, hreg, herr, hinv⟩
          refine ⟨⟨.invokeEvent 1 11 (inv 11) ::
              ([PAct.eventRetryLog 1 c] ++ [PAct.sleepEvent] ++
               [PAct.receiveEvent 1 true true] ++ out2.acts),
            out2.reg, out2.inv, out2.err⟩, ?_, ?_, ?_, ?_, ?_⟩
          · simp only [eventLoop, hstep, applyRegOps, hrec, if_true]
          · simp only [hacts]
            have hb : (bump inv 11) 11 = inv 11 + 1 := by simp [bump]
            simp [retrySeq, hb, herr]
          · exact hreg
          · exact herr
          · rw [hinv]
            funext x
            by_cases hx : x = 11
            · subst hx; simp
            · simp [hx, bump]

theorem c1_process_events (K c f : Nat) (hf : K < f + 1) :
    ∃ out, EventProcessor.process_events 0 (c1sem K c) true (f + 1) c1tx
        c1reg (fun _ => 0) = some out ∧
      out.acts =
        [.receiveEvent 0 true false, .invokeEvent 0 10 0,
         .finishEvent 0 true, .receiveEvent 1 true false] ++
        retrySeq c 0 K ++
        [.invokeEvent 1 11 K, .finishEvent 1 true,
         .receiveEvent 3 true false, .invokeEvent 3 12 0,
         .finishEvent 3 true] ∧
      out.reg = c1reg ∧ out.err = none := by
  have h11 : (bump (fun _ => 0) 10) 11 + K = K := by simp [bump]
  rcases c1_loop K c K (f + 1) c1reg (bump (fun _ => 0) 10) h11 hf with
    ⟨out1, hloop1, hacts1, hreg1, herr1, hinv1⟩
  have hstep0 : c1sem K c 10 ((fun (_ : Nat) => 0) 10) = ⟨[], none⟩ := by
    simp [c1sem]
  have hloop0 := eventLoop_ok (c1sem K c) true 0 10 f c1reg (fun _ => 0) hstep0
  have hstep3 : c1sem K c 12 (out1.inv 12) = ⟨[], none⟩ := by
    simp [c1sem]
  have hloop3 := eventLoop_ok (c1sem K c) true 3 12 f out1.reg out1.inv hstep3
  have hex3 : out1.reg.handler_exists_for_event evC = true := by
    rw [hreg1]; rfl
  have hres3 : resolveEventHandler out1.reg 0 evC = some 12 := by
    rw [hreg1]; rfl
  have hnil := processEventsGo_nil 0 (c1sem K c) true (f + 1)
    out1.reg (bump out1.inv 12)
  have h3 := processEventsGo_cons_targeted 0 (c1sem K c) true (f + 1) 3 evC
    [] out1.reg out1.inv 12
    ⟨[.invokeEvent 3 12 (out1.inv 12)], out1.reg, bump out1.inv 12, none⟩
    ⟨[], out1.reg, bump out1.inv 12, none⟩
    hex3 hres3 hloop3 rfl hnil
  have hex2 : out1.reg.handler_exists_for_event evX = false := by
    rw [hreg1]; rfl
  have h2 := processEventsGo_cons_skip 0 (c1sem K c) true (f + 1) 2 evX
    [(3, evC)] out1.reg out1.inv hex2
  have h23 : processEventsGo 0 (c1sem K c) true (f + 1)
      [(2, evX), (3, evC)] out1.reg out1.inv =
    some ⟨(if true then [PAct.receiveEvent 3 true false] else []) ++
        [.invokeEvent 3 12 (out1.inv 12)] ++
        (if true then [PAct.finishEvent 3 true] else []) ++ [],
      out1.reg, bump out1.inv 12, none⟩ := h2.trans h3
  have hex1 : c1reg.handler_exists_for_event evA = true := rfl
  have hres1 : resolveEventHandler c1reg 0 evA = some 11 := rfl
  have h1 := processEventsGo_cons_targeted 0 (c1sem K c) true (f + 1) 1 evA
    [(2, evX), (3, evC)] c1reg (bump (fun _ => 0) 10) 11 out1
    ⟨(if true then [PAct.receiveEvent 3 true false] else []) ++
        [.invokeEvent 3 12 (out1.inv 12)] ++
        (if true then [PAct.finishEvent 3 true] else []) ++ [],
      out1.reg, bump out1.inv 12, none⟩
    hex1 hres1 hloop1 herr1 h23
  have hex0 : c1reg.handler_exists_for_event evB = true := rfl
  have hres0 : resolveEventHandler c1reg 0 evB = some 10 := rfl
  have h0 := processEventsGo_cons_targeted 0 (c1sem K c) true (f + 1) 0 evB
    [(1, evA), (2, evX), (3, evC)] c1reg (fun _ => 0) 10
    ⟨[.invokeEvent 0 10 ((fun _ => 0) 10)], c1reg, bump (fun _ => 0) 10, none⟩
    ⟨(if true then [PAct.receiveEvent 1 true false] else []) ++
        out1.acts ++ (if true then [PAct.finishEvent 1 true] else []) ++
        ((if true then [PAct.receiveEvent 3 true false] else []) ++
         [.invokeEvent 3 12 (out1.inv 12)] ++
         (if true then [PAct.finishEvent 3 true] else []) ++ []),
      out1.reg, bump out1.inv 12, none⟩
    hex0 hres0 hloop0 rfl h1
  refine ⟨_, h0, ?_, hreg1, rfl⟩
  have hinv12 : out1.inv 12 = 0 := by rw [hinv1]; simp [bump]
  simp only [hacts1, hinv12]
  have hb11 : (bump (fun _ => 0) 10) 11 = 0 := by simp [bump]
  rw [hb11]
  simp

def isInvokeOf (h : Nat) : PAct → Bool
  | .invokeEvent _ hd _ => hd == h
  | _ => false

def isInvokeTx : PAct → Bool
  | .invokeTx _ => true
  | _ => false

theorem retrySeq_countP_self (c : Nat) :
    ∀ (n a : Nat), (retrySeq c a n).countP (isInvokeOf 11) = n := by
  intro n
  induction n with
  | zero => intro a; simp [retrySeq]
  | succ m ih =>
      intro a
      simp [retrySeq, List.countP_cons, isInvokeOf, ih (a + 1)]

theorem retrySeq_countP_of (h c : Nat) (hne : (11 == h) = false) :
    ∀ (n a : Nat), (retrySeq c a n).countP (isInvokeOf h) = 0 := by
  intro n
  induction n with
  | zero => intro a; simp [retrySeq]
  | succ m ih =>
      intro a
      simp [retrySeq, List.countP_cons, isInvokeOf, hne, ih (a + 1)]

theorem retrySeq_countP_tx (c : Nat) :
    ∀ (n a : Nat), (retrySeq c a n).countP isInvokeTx = 0 := by
  intro n
  induction n with
  | zero => intro a; simp [retrySeq]
  | succ m ih =>
      intro a
      simp [retrySeq, List.countP_cons, isInvokeTx, ih (a + 1)]

/-- C1: in a transaction whose events are a targeted sibling (handler
`10`), the designated event (handler `11`), an untargeted event, and a
later targeted sibling (handler `12`), if the designated handler returns
`EventRetry` on each of its first `K` invocations and then succeeds,
`process_events` under the default transaction handler invokes that single
handler exactly `K + 1` times — each retry with the same event and index,
the attempt counter being the only thing that moves — while the
transaction handler is invoked exactly once, each sibling handler exactly
once, and processing advances past the designated event to the later
sibling before finishing the transaction successfully. -/
theorem C1_event_retry_localises (K c f : Nat) (hf : K < f + 1) :
    ∃ out, TransactionProcessor.process_transaction
        (DefaultTransactionHandler.handle 0 (c1sem K c) true (f + 1) c1tx)
        true (f + 1) c1tx c1reg (fun _ => 0) = some out ∧
      out.acts =
        [.receiveTransaction true false, .invokeTx 0,
         .receiveEvent 0 true false, .invokeEvent 0 10 0,
         .finishEvent 0 true, .receiveEvent 1 true false] ++
        retrySeq c 0 K ++
        [.invokeEvent 1 11 K, .finishEvent 1 true,
         .receiveEvent 3 true false, .invokeEvent 3 12 0,
         .finishEvent 3 true, .finishTransaction true] ∧
      out.err = none ∧
      out.acts.countP (isInvokeOf 11) = K + 1 ∧
      out.acts.countP (isInvokeOf 10) = 1 ∧
      out.acts.countP (isInvokeOf 12) = 1 ∧
      out.acts.countP isInvokeTx = 1 := by
  rcases c1_process_events K c f hf with ⟨outE, hpe, hactsE, hregE, herrE⟩
  have hth := default_handle_ok 0 (c1sem K c) true (f + 1) c1tx 0 c1reg
    (fun _ => 0) outE hpe herrE
  have htx := txLoop_ok
    (DefaultTransactionHandler.handle 0 (c1sem K c) true (f + 1) c1tx)
    true f 0 c1reg (fun _ => 0) ⟨outE.acts, outE.reg, outE.inv, none⟩ hth rfl
  have hexany : c1tx.events.any c1reg.handler_exists_for_event = true := rfl
  have hpt := process_transaction_handled
    (DefaultTransactionHandler.handle 0 (c1sem K c) true (f + 1) c1tx)
    true (f + 1) c1tx c1reg (fun _ => 0)
    ⟨.invokeTx 0 :: outE.acts, outE.reg, outE.inv, none⟩ hexany htx rfl
  have hacts : ((if true then [PAct.receiveTransaction true false] else []) ++
      ((.invokeTx 0 :: outE.acts) : List PAct) ++
      (if true then [PAct.finishTransaction true] else [])) =
      [.receiveTransaction true false, .invokeTx 0,
       .receiveEvent 0 true false, .invokeEvent 0 10 0,
       .finishEvent 0 true, .receiveEvent 1 true false] ++
      retrySeq c 0 K ++
      [.invokeEvent 1 11 K, .finishEvent 1 true,
       .receiveEvent 3 true false, .invokeEvent 3 12 0,
       .finishEvent 3 true, .finishTransaction true] := by
    simp only [hactsE]
    simp
  refine ⟨_, hpt, hacts, rfl, ?_, ?_, ?_, ?_⟩
  · rw [hacts]
    simp [List.countP_append, List.countP_cons, isInvokeOf,
      retrySeq_countP_self]
  · rw [hacts]
    simp [List.countP_append, List.countP_cons, isInvokeOf,
      retrySeq_countP_of 10 c rfl]
  · rw [hacts]
    simp [List.countP_append, List.countP_cons, isInvokeOf,
      retrySeq_countP_of 12 c rfl]
  · rw [hacts]
    simp [List.countP_append, List.countP_cons, isInvokeTx,
      retrySeq_countP_tx]

def fB : Event := ⟨"FB", [], .Function "qB" "b"⟩

def fA : Event := ⟨"FA", [], .Function "qA" "b"⟩

def fC : Event := ⟨"FC", [], .Function "qC" "b"⟩

def c2reg : HandlerRegistry :=
  ⟨[(("qB", "FB"), ⟨0, 20⟩), (("qA", "FA"), ⟨0, 21⟩), (("qC", "FC"), ⟨0, 22⟩)],
    [], some 0⟩

def c2tx : Transaction := ⟨"ih", 2, none, [fB, fA, fC]⟩

def c2sem (K c : Nat) : EventOracle := fun h n =>
  if h = 21 then
    (if n < K then ⟨[], some (.TransactionRetryError c)⟩ else ⟨[], none⟩)
  else ⟨[], none⟩

theorem c2_attempt_fail (K c f : Nat) (inv : Nat → Nat)
    (h21 : inv 21 < K) :
    ∃ outE, EventProcessor.process_events 0 (c2sem K c) true (f + 1) c2tx
        c2reg inv = some outE ∧
      outE.acts = [.receiveEvent 0 true false, .invokeEvent 0 20 (inv 20),
        .finishEvent 0 true, .receiveEvent 1 true false,
        .invokeEvent 1 21 (inv 21)] ∧
      outE.reg = c2reg ∧
      outE.err = some (.TransactionRetryError c) ∧
      outE.inv = bump (bump inv 20) 21 := by
  have hstep0 : c2sem K c 20 (inv 20) = ⟨[], none⟩ := by simp [c2sem]
  have hloop0 := eventLoop_ok (c2sem K c) true 0 20 f c2reg inv hstep0
  have hb21 : (bump inv 20) 21 = inv 21 := by simp [bump]
  have hstep1 : c2sem K c 21 ((bump inv 20) 21) =
      ⟨[], some (.TransactionRetryError c)⟩ := by
    rw [hb21]; simp [c2sem, h21]
  have hloop1 := eventLoop_txretry (c2sem K c) true 1 21 f c2reg
    (bump inv 20) c hstep1
  have h1 := processEventsGo_cons_err 0 (c2sem K c) true (f + 1) 1 fA
    [(2, fC)] c2reg (bump inv 20) 21
    ⟨[.invokeEvent 1 21 ((bump inv 20) 21)], c2reg, bump (bump inv 20) 21,
      some (.TransactionRetryError c)⟩
    (.TransactionRetryError c) rfl rfl hloop1 rfl
  have h0 := processEventsGo_cons_targeted 0 (c2sem K c) true (f + 1) 0 fB
    [(1, fA), (2, fC)] c2reg inv 20
    ⟨[.invokeEvent 0 20 (inv 20)], c2reg, bump inv 20, none⟩
    ⟨(if true then [PAct.receiveEvent 1 true false] else []) ++
        [.invokeEvent 1 21 ((bump inv 20) 21)],
      c2reg, bump (bump inv 20) 21, some (.TransactionRetryError c)⟩
    rfl rfl hloop0 rfl h1
  refine ⟨_, h0, ?_, rfl, rfl, rfl⟩
  rw [hb21]
  simp

theorem c2_attempt_ok (K c f : Nat) (inv : Nat → Nat)
    (h21 : ¬ inv 21 < K) :
    ∃ outE, EventProcessor.process_events 0 (c2sem K c) true (f + 1) c2tx
        c2reg inv = some outE ∧
      outE.acts = [.receiveEvent 0 true false, .invokeEvent 0 20 (inv 20),
        .finishEvent 0 true, .receiveEvent 1 true false,
        .invokeEvent 1 21 (inv 21), .finishEvent 1 true,
        .receiveEvent 2 true false, .invokeEvent 2 22 (inv 22),
        .finishEvent 2 true] ∧
      outE.reg = c2reg ∧
      outE.err = none ∧
      outE.inv = bump (bump (bump inv 20) 21) 22 := by
  have hstep0 : c2sem K c 20 (inv 20) = ⟨[], none⟩ := by simp [c2sem]
  have hloop0 := eventLoop_ok (c2sem K c) true 0 20 f c2reg inv hstep0
  have hb21 : (bump inv 20) 21 = inv 21 := by simp [bump]
  have hstep1 : c2sem K c 21 ((bump inv 20) 21) = ⟨[], none⟩ := by
    rw [hb21]; simp [c2sem, h21]
  have hloop1 := eventLoop_ok (c2sem K c) true 1 21 f c2reg
    (bump inv 20) hstep1
  have hb22 : (bump (bump inv 20) 21) 22 = inv 22 := by simp [bump]
  have hstep2 : c2sem K c 22 ((bump (bump inv 20) 21) 22) = ⟨[], none⟩ := by
    simp [c2sem]
  have hloop2 := eventLoop_ok (c2sem K c) true 2 22 f c2reg
    (bump (bump inv 20) 21) hstep2
  have hnil := processEventsGo_nil 0 (c2sem K c) true (f + 1)
    c2reg (bump (bump (bump inv 20) 21) 22)
  have h2 := processEventsGo_cons_targeted 0 (c2sem K c) true (f + 1) 2 fC
    [] c2reg (bump (bump inv 20) 21) 22
    ⟨[.invokeEvent 2 22 ((bump (bump inv 20) 21) 22)], c2reg,
      bump (bump (bump inv 20) 21) 22, none⟩
    ⟨[], c2reg, bump (bump (bump inv 20) 21) 22, none⟩
    rfl rfl hloop2 rfl hnil
  have h1 := processEventsGo_cons_targeted 0 (c2sem K c) true (f + 1) 1 fA
    [(2, fC)] c2reg (bump inv 20) 21
    ⟨[.invokeEvent 1 21 ((bump inv 20) 21)], c2reg, bump (bump inv 20) 21,
      none⟩
    ⟨(if true then [PAct.receiveEvent 2 true false] else []) ++
        [.invokeEvent 2 22 ((bump (bump inv 20) 21) 22)] ++
        (if true then [PAct.finishEvent 2 true] else []) ++ [],
      c2reg, bump (bump (bump inv 20) 21) 22, none⟩
    rfl rfl hloop1 rfl h2
  have h0 := processEventsGo_cons_targeted 0 (c2sem K c) true (f + 1) 0 fB
    [(1, fA), (2, fC)] c2reg inv 20
    ⟨[.invokeEvent 0 20 (inv 20)], c2reg, bump inv 20, none⟩
    ⟨(if true then [PAct.receiveEvent 1 true false] else []) ++
        [.invokeEvent 1 21 ((bump inv 20) 21)] ++
        (if true then [PAct.finishEvent 1 true] else []) ++
        ((if true then [PAct.receiveEvent 2 true false] else []) ++
         [.invokeEvent 2 22 ((bump (bump inv 20) 21) 22)] ++
         (if true then [PAct.finishEvent 2 true] else []) ++ []),
      c2reg, bump (bump (bump inv 20) 21) 22, none⟩
    rfl rfl hloop0 rfl h1
  refine ⟨_, h0, ?_, rfl, rfl, rfl⟩
  rw [hb21, hb22]
  simp

def c2attempts (c : Nat) : Nat → Nat → List PAct
  | _, 0 => []
  | a, m + 1 =>
      .invokeTx a :: .receiveEvent 0 true false :: .invokeEvent 0 20 a ::
      .finishEvent 0 true :: .receiveEvent 1 true false ::
      .invokeEvent 1 21 a :: .txRetryLog c :: .sleepTx ::
      .receiveTransaction true true :: c2attempts c (a + 1) m

theorem c2_txloop (K c f : Nat) :
    ∀ (m a ft : Nat) (inv : Nat → Nat),
      inv 20 = a → inv 21 = a → inv 22 = 0 → a + m = K → m < ft →
      ∃ out, txLoop
          (DefaultTransactionHandler.handle 0 (c2sem K c) true (f + 1) c2tx)
          true ft a c2reg inv = some out ∧
        out.acts = c2attempts c a m ++
          [.invokeTx K, .receiveEvent 0 true false, .invokeEvent 0 20 K,
           .finishEvent 0 true, .receiveEvent 1 true false,
           .invokeEvent 1 21 K, .finishEvent 1 true,
           .receiveEvent 2 true false, .invokeEvent 2 22 0,
           .finishEvent 2 true] ∧
        out.err = none ∧
        out.reg = c2reg := by
  intro m
  induction m with
  | zero =>
      intro a ft inv h20 h21 h22 hK hft
      cases ft with
      | zero => exact absurd hft (by omega)
      | succ t =>
          have haK : a = K := by omega
          subst haK
          have hnl : ¬ inv 21 < a := by omega
          rcases c2_attempt_ok a c f inv hnl with
            ⟨outE, hpe, hacts, hreg, herr, hinv⟩
          have hth := default_handle_ok 0 (c2sem a c) true (f + 1) c2tx a
            c2reg inv outE hpe herr
          have htx := txLoop_ok
            (DefaultTransactionHandler.handle 0 (c2sem a c) true (f + 1) c2tx)
            true t a c2reg inv ⟨outE.acts, outE.reg, outE.inv, none⟩ hth rfl
          refine ⟨_, htx, ?_, rfl, hreg⟩
          simp only [hacts, h20, h21, h22]
          simp [c2attempts]
  | succ n ih =>
      intro a ft inv h20 h21 h22 hK hft
      cases ft with
      | zero => exact absurd hft (by omega)
      | succ t =>
          have hlt : inv 21 < K := by omega
          rcases c2_attempt_fail K c f inv hlt with
            ⟨outE, hpe, hacts, hreg, herr, hinv⟩
          have hconv : TransactionHandlerError.fromEventHandlerError
              (EventHandlerError.TransactionRetryError (α := Nat) c) =
              some (.TransactionRetryError c) := rfl
          have hth := default_handle_err 0 (c2sem K c) true (f + 1) c2tx a
            c2reg inv outE (.TransactionRetryError c)
            (.TransactionRetryError c) hpe herr hconv
          have hinv20 : outE.inv 20 = a + 1 := by
            rw [hinv]; simp [bump, h20]
          have hinv21 : outE.inv 21 = a + 1 := by
            rw [hinv]; simp [bump, h21]
          have hinv22 : outE.inv 22 = 0 := by
            rw [hinv]; simp [bump, h22]
          have hK2 : (a + 1) + n = K := by omega
          have hft2 : n < t := by omega
          rcases ih (a + 1) t outE.inv hinv20 hinv21 hinv22 hK2 hft2 with
            ⟨out2, htx2, hacts2, herr2, hreg2⟩
          have htx2b : txLoop
              (DefaultTransactionHandler.handle 0 (c2sem K c) true (f + 1)
                c2tx) true t (a + 1) outE.reg outE.inv = some out2 := by
            rw [hreg]; exact htx2
          have htx := txLoop_retry
            (DefaultTransactionHandler.handle 0 (c2sem K c) true (f + 1) c2tx)
            true t a c2reg inv ⟨outE.acts, outE.reg, outE.inv,
              some (.TransactionRetryError c)⟩ out2 c hth rfl htx2b
          refine ⟨_, htx, ?_, herr2, hreg2⟩
          simp only [hacts, hacts2, h20, h21]
          simp [c2attempts]

theorem c2attempts_countP_tx (c : Nat) :
    ∀ (m a : Nat), (c2attempts c a m).countP isInvokeTx = m := by
  intro m
  induction m with
  | zero => intro a; simp [c2attempts]
  | succ n ih =>
      intro a
      simp [c2attempts, List.countP_cons, isInvokeTx, ih (a + 1)]

theorem c2attempts_countP_20 (c : Nat) :
    ∀ (m a : Nat), (c2attempts c a m).countP (isInvokeOf 20) = m := by
  intro m
  induction m with
  | zero => intro a; simp [c2attempts]
  | succ n ih =>
      intro a
      simp [c2attempts, List.countP_cons, isInvokeOf, ih (a + 1)]

theorem c2attempts_countP_21 (c : Nat) :
    ∀ (m a : Nat), (c2attempts c a m).countP (isInvokeOf 21) = m := by
  intro m
  induction m with
  | zero => intro a; simp [c2attempts]
  | succ n ih =>
      intro a
      simp [c2attempts, List.countP_cons, isInvokeOf, ih (a + 1)]

theorem c2attempts_countP_22 (c : Nat) :
    ∀ (m a : Nat), (c2attempts c a m).countP (isInvokeOf 22) = 0 := by
  intro m
  induction m with
  | zero => intro a; simp [c2attempts]
  | succ n ih =>
      intro a
      simp [c2attempts, List.countP_cons, isInvokeOf, ih (a + 1)]

def c2usem (c : Nat) : EventOracle := fun h _ =>
  if h = 21 then ⟨[], some (.UnrecoverableError c)⟩ else ⟨[], none⟩

/-- C2 (amended): with the default transaction handler over three targeted
events whose middle handler (`21`) returns `TransactionRetry` on its first
`K` invocations and then succeeds, `process_transaction` invokes the
transaction handler exactly `K + 1` times with the same transaction, and
every event handler reached in every attempt (the handlers at positions up
to and including the failing one, `20` and `21`) is invoked exactly
`K + 1` times — but a handler first reached only in the final attempt
(`22`) is invoked exactly once; and a handler returning `Unrecoverable`
instead terminates processing with that error, cause unchanged. -/
theorem C2_transaction_retry_restarts (K c f t : Nat) (hft : K < t + 1) :
    (∃ out, TransactionProcessor.process_transaction
        (DefaultTransactionHandler.handle 0 (c2sem K c) true (f + 1) c2tx)
        true (t + 1) c2tx c2reg (fun _ => 0) = some out ∧
      out.acts = .receiveTransaction true false ::
        (c2attempts c 0 K ++
         [.invokeTx K, .receiveEvent 0 true false, .invokeEvent 0 20 K,
          .finishEvent 0 true, .receiveEvent 1 true false,
          .invokeEvent 1 21 K, .finishEvent 1 true,
          .receiveEvent 2 true false, .invokeEvent 2 22 0,
          .finishEvent 2 true, .finishTransaction true]) ∧
      out.err = none ∧
      out.acts.countP isInvokeTx = K + 1 ∧
      out.acts.countP (isInvokeOf 20) = K + 1 ∧
      out.acts.countP (isInvokeOf 21) = K + 1 ∧
      out.acts.countP (isInvokeOf 22) = 1) ∧
    (∃ out, TransactionProcessor.process_transaction
        (DefaultTransactionHandler.handle 0 (c2usem c) true (f + 1) c2tx)
        true (t + 1) c2tx c2reg (fun _ => 0) = some out ∧
      out.err = some (.UnrecoverableError c) ∧
      out.acts = [.receiveTransaction true false, .invokeTx 0,
        .receiveEvent 0 true false, .invokeEvent 0 20 0,
        .finishEvent 0 true, .receiveEvent 1 true false,
        .invokeEvent 1 21 0, .unrecoverableLog c]) := by
  constructor
  · rcases c2_txloop K c f K 0 (t + 1) (fun _ => 0) rfl rfl rfl
      (by omega) hft with ⟨out, htx, hacts, herr, hreg⟩
    have hexany : c2tx.events.any c2reg.handler_exists_for_event = true := rfl
    have hpt := process_transaction_handled
      (DefaultTransactionHandler.handle 0 (c2sem K c) true (f + 1) c2tx)
      true (t + 1) c2tx c2reg (fun _ => 0) out hexany htx herr
    have hactsFull : ((if true then [PAct.receiveTransaction true false]
        else []) ++ out.acts ++
        (if true then [PAct.finishTransaction true] else [])) =
        .receiveTransaction true false ::
        (c2attempts c 0 K ++
         [.invokeTx K, .receiveEvent 0 true false, .invokeEvent 0 20 K,
          .finishEvent 0 true, .receiveEvent 1 true false,
          .invokeEvent 1 21 K, .finishEvent 1 true,
          .receiveEvent 2 true false, .invokeEvent 2 22 0,
          .finishEvent 2 true, .finishTransaction true]) := by
      simp only [hacts]
      simp
    refine ⟨_, hpt, hactsFull, rfl, ?_, ?_, ?_, ?_⟩
    · rw [hactsFull]
      simp [List.countP_append, List.countP_cons, isInvokeTx,
        c2attempts_countP_tx]
    · rw [hactsFull]
      simp [List.countP_append, List.countP_cons, isInvokeOf,
        c2attempts_countP_20]
    · rw [hactsFull]
      simp [List.countP_append, List.countP_cons, isInvokeOf,
        c2attempts_countP_21]
    · rw [hactsFull]
      simp [List.countP_append, List.countP_cons, isInvokeOf,
        c2attempts_countP_22]
  · have hstep0 : c2usem c 20 ((fun (_ : Nat) => 0) 20) = ⟨[], none⟩ := by
      simp [c2usem]
    have hloop0 := eventLoop_ok (c2usem c) true 0 20 f c2reg
      (fun _ => 0) hstep0
    have hstep1 : c2usem c 21 ((bump (fun _ => 0) 20) 21) =
        ⟨[], some (.UnrecoverableError c)⟩ := by
      simp [c2usem]
    have hloop1 := eventLoop_unrec (c2usem c) true 1 21 f c2reg
      (bump (fun _ => 0) 20) c hstep1
    have h1 := processEventsGo_cons_err 0 (c2usem c) true (f + 1) 1 fA
      [(2, fC)] c2reg (bump (fun _ => 0) 20) 21
      ⟨[.invokeEvent 1 21 ((bump (fun _ => 0) 20) 21)], c2reg,
        bump (bump (fun _ => 0) 20) 21, some (.UnrecoverableError c)⟩
      (.UnrecoverableError c) rfl rfl hloop1 rfl
    have h0 := processEventsGo_cons_targeted 0 (c2usem c) true (f + 1) 0 fB
      [(1, fA), (2, fC)] c2reg (fun _ => 0) 20
      ⟨[.invokeEvent 0 20 ((fun _ => 0) 20)], c2reg, bump (fun _ => 0) 20,
        none⟩
      ⟨(if true then [PAct.receiveEvent 1 true false] else []) ++
          [.invokeEvent 1 21 ((bump (fun _ => 0) 20) 21)],
        c2reg, bump (bump (fun _ => 0) 20) 21,
        some (.UnrecoverableError c)⟩
      rfl rfl hloop0 rfl h1
    have hpe : EventProcessor.process_events 0 (c2usem c) true (f + 1)
        c2tx c2reg (fun _ => 0) = _ := h0
    have hconv : TransactionHandlerError.fromEventHandlerError
        (EventHandlerError.UnrecoverableError (α := Nat) c) =
        some (.UnrecoverableError c) := rfl
    have hth := default_handle_err 0 (c2usem c) true (f + 1) c2tx 0 c2reg
      (fun _ => 0) _ (.UnrecoverableError c) (.UnrecoverableError c)
      hpe rfl hconv
    have htx := txLoop_unrec
      (DefaultTransactionHandler.handle 0 (c2usem c) true (f + 1) c2tx)
      true t 0 c2reg (fun _ => 0) _ c hth rfl
    have hexany : c2tx.events.any c2reg.handler_exists_for_event = true := rfl
    have hpt := process_transaction_err
      (DefaultTransactionHandler.handle 0 (c2usem c) true (f + 1) c2tx)
      true (t + 1) c2tx c2reg (fun _ => 0) _ (.UnrecoverableError c)
      hexany htx rfl
    refine ⟨_, hpt, rfl, ?_⟩
    simp [bump]

/-- C2 counterexample: with `K = 1` (one transaction retry, then success)
the run succeeds after two transaction-handler invocations, and the event
handler `22` — reached when the final attempt got past the previously
failing event — is invoked exactly once, not at least `K + 1 = 2` times,
refuting the claim that every event handler reached is invoked at least
`K + 1` times. -/
theorem C2_reached_handler_counterexample :
    Option.map (fun o => (o.err, o.acts.countP isInvokeTx,
        o.acts.countP (isInvokeOf 22)))
      (TransactionProcessor.process_transaction
        (DefaultTransactionHandler.handle 0 (c2sem 1 5) true 1 c2tx)
        true 2 c2tx c2reg (fun _ => 0)) = some (none, 2, 1) := by rfl

theorem C1_event_retry_localises_witness :
    Option.map (fun o => (o.err, o.acts.countP (isInvokeOf 11),
        o.acts.countP (isInvokeOf 10), o.acts.countP isInvokeTx))
      (TransactionProcessor.process_transaction
        (DefaultTransactionHandler.handle 0 (c1sem 2 9) true 3 c1tx)
        true 3 c1tx c1reg (fun _ => 0)) = some (none, 3, 1, 1) := by
  rcases C1_event_retry_localises 2 9 2 (by decide) with
    ⟨out, h1, hacts, herr, h4, h5, h6, h7⟩
  rw [h1]
  simp [herr, h4, h5, h7]

theorem C2_transaction_retry_restarts_witness :
    Option.map (fun o => (o.err, o.acts.countP isInvokeTx,
        o.acts.countP (isInvokeOf 20), o.acts.countP (isInvokeOf 22)))
      (TransactionProcessor.process_transaction
        (DefaultTransactionHandler.handle 0 (c2sem 1 5) true 1 c2tx)
        true 2 c2tx c2reg (fun _ => 0)) = some (none, 2, 2, 1) := by
  rcases (C2_transaction_retry_restarts 1 5 0 1 (by decide)).1 with
    ⟨out, h1, hacts, herr, h4, h5, h6, h7⟩
  rw [h1]
  simp [herr, h4, h5, h7]
